import Mathlib

/-!
# SFU conference server: rooms, renegotiation, lobby dispatcher

A shallow embedding of `handlers/conference_room.go`, `handlers/RoomInfoSignaling.go`
and `handlers/webrtc.go`.

Conventions of the embedding

* Go pointers to peer connections and websockets are addresses (`Nat`); the peer
  connections live in a heap `World.pcs`, so that two sessions are the same session
  exactly when their addresses agree.
* The media stack (pion) and the websocket library are outside the repository.  Every
  call into them that returns an `error` takes its outcome from `World.errs`, the list of
  outcomes of the fallible calls still to come (`true` is an error).  When a call
  succeeds it has its nominal effect on the model of the peer connection.
* A Go `map[string]T` is an association list; the order of the list stands for the
  order in which the runtime happens to iterate.
* Sleeping and waiting take no part in the state; a loop that never ends is run for a
  given number of rounds.
-/

namespace SFU

/-! ## Data model -/

/-- Type `uuid.UUID`, carried as its canonical text (what `String()` prints). -/
structure UUID where
  text : String
deriving DecidableEq, Repr

/-- The values of `webrtc.PeerConnectionState`. -/
inductive PeerConnectionState where
  | Unknown | New | Connecting | Connected | Disconnected | Failed | Closed
deriving DecidableEq, Repr

/-- Type `webrtc.TrackLocalStaticRTP`: the forwarding track. -/
structure TrackLocalStaticRTP where
  codec : String
  id : String
  streamID : String
deriving DecidableEq, Repr

/-- Type `webrtc.TrackRemote`: a track published by a client. -/
structure TrackRemote where
  codec : String
  id : String
  streamID : String
  ssrc : Nat
deriving DecidableEq, Repr

/-- Type `webrtc.RTPSender`; `track = none` is `sender.Track() == nil`. -/
structure RTPSender where
  track : Option TrackLocalStaticRTP
deriving DecidableEq, Repr

/-- Type `webrtc.RTPReceiver`; `track = none` is `receiver.Track() == nil`. -/
structure RTPReceiver where
  track : Option TrackRemote
deriving DecidableEq, Repr

/-- The part of `webrtc.PeerConnection` the handlers read and write:
`ConnectionState()`, `GetSenders()`, `GetReceivers()`. -/
structure PeerConnection where
  connectionState : PeerConnectionState
  senders : List RTPSender
  receivers : List RTPReceiver
deriving DecidableEq, Repr

/-- Struct `websocketwebRTCMessage` (conference_room.go:17). -/
structure websocketwebRTCMessage where
  Event : String
  Data : String
deriving DecidableEq, Repr

/-- Struct `clientConnectionState` (conference_room.go:43): two pointers. -/
structure clientConnectionState where
  peerConnection : Nat
  websocket : Nat
deriving DecidableEq, Repr

/-- A `map[string]*webrtc.TrackLocalStaticRTP`. -/
abbrev TrackMap := List (String × TrackLocalStaticRTP)

/-- Struct `ConferenceRoom` (conference_room.go:49), without its lock. -/
structure ConferenceRoom where
  RoomID : UUID
  conns : List clientConnectionState
  clientTracks : TrackMap
  createdTime : Nat
deriving DecidableEq, Repr

/-- Struct `webRTCServer` (webrtc.go:24): the registry `allRooms`. -/
structure webRTCServer where
  Rooms : List (UUID × ConferenceRoom)
deriving DecidableEq, Repr

/-- Everything outside the room that the handlers touch. -/
structure World where
  /-- the heap of peer connections, by address -/
  pcs : Nat → PeerConnection
  /-- outcomes of the fallible library calls still to come, `true` = error -/
  errs : List Bool
  /-- frames written with `WriteJSON`, oldest first, with the websocket written to -/
  sent : List (Nat × websocketwebRTCMessage)
  /-- picture loss indications written with `WriteRTCP`: peer connection and SSRC -/
  rtcp : List (Nat × Nat)

/-! ## Maps -/

/-- The `_, ok := m[k]` test. -/
def TrackMap.has (m : TrackMap) (k : String) : Bool :=
  m.any (fun kv => kv.1 == k)

/-- The lookup `m[k]`; `none` is the nil pointer of a missing key. -/
def TrackMap.get (m : TrackMap) (k : String) : Option TrackLocalStaticRTP :=
  (m.find? (fun kv => kv.1 == k)).map (fun kv => kv.2)

/-- The statement `delete(m, k)`. -/
def TrackMap.delete (m : TrackMap) (k : String) : TrackMap :=
  m.filter (fun kv => kv.1 != k)

/-- The assignment `m[k] = v`. -/
def TrackMap.set (m : TrackMap) (k : String) (v : TrackLocalStaticRTP) : TrackMap :=
  (k, v) :: m.delete k

/-- The keys of the map. -/
def TrackMap.keys (m : TrackMap) : List String :=
  m.map (fun kv => kv.1)

/-- The test `_, ok := allRooms[id]`. -/
def webRTCServer.has (s : webRTCServer) (id : UUID) : Bool :=
  s.Rooms.any (fun kv => kv.1 == id)

/-- The lookup `allRooms.Rooms[id]`. -/
def webRTCServer.get (s : webRTCServer) (id : UUID) : Option ConferenceRoom :=
  (s.Rooms.find? (fun kv => kv.1 == id)).map (fun kv => kv.2)

/-- The statement `delete(allRooms, id)`. -/
def webRTCServer.delete (s : webRTCServer) (id : UUID) : webRTCServer :=
  { Rooms := s.Rooms.filter (fun kv => kv.1 != id) }

/-- The assignment `allRooms[id] = room`. -/
def webRTCServer.set (s : webRTCServer) (id : UUID) (r : ConferenceRoom) : webRTCServer :=
  { Rooms := (id, r) :: (s.delete id).Rooms }

/-! ## The world -/

/-- The outcome of the next fallible library call: `true` when it returns an error. -/
def World.fail (w : World) : Bool × World :=
  match w.errs with
  | [] => (false, w)
  | e :: es => (e, { w with errs := es })

/-- Store a peer connection at an address. -/
def World.setPC (w : World) (p : Nat) (pc : PeerConnection) : World :=
  { w with pcs := Function.update w.pcs p pc }

/-- The ids of the non-nil tracks on a list of senders. -/
def trackIDs (senders : List RTPSender) : List String :=
  senders.filterMap (fun s => s.track.map (fun t => t.id))

/-- The ids of the non-nil tracks on the senders of a peer connection. -/
def senderIDs (pc : PeerConnection) : List String :=
  trackIDs pc.senders

/-- The ids of the non-nil tracks on the receivers of a peer connection. -/
def receiverIDs (pc : PeerConnection) : List String :=
  pc.receivers.filterMap (fun r => r.track.map (fun t => t.id))

/-- Nominal effect of a successful `pc.AddTrack(track)`: one more sender, carrying the
track. -/
def PeerConnection.AddTrack (pc : PeerConnection) (t : TrackLocalStaticRTP) : PeerConnection :=
  { pc with senders := pc.senders ++ [{ track := some t }] }

/-- The function `signalingStateCheck` (conference_room.go:275): it polls the signaling
state every 100 ms until the peer is stable or closed.  It only reads, and what it waits
for is brought about by other goroutines; here it is taken to return, and it leaves the
world as it is. -/
def signalingStateCheck (w : World) : World := w

/-! ## signalPeerConnections -/

/-- The loop over `GetSenders()` (conference_room.go:199-213).  A sender without a track
is skipped.  A sender whose track id is not a key of `clientTracks` is passed to
`RemoveTrack` after `signalingStateCheck`: when the call succeeds the sender is no longer
among the senders of the peer, when it fails the attempt is over (`true`) and the senders
not yet visited stay.  Returns the senders the peer is left with. -/
def removeStaleSenders (clientTracks : TrackMap) :
    List RTPSender → World → Bool × List RTPSender × World
  | [], w => (false, [], w)
  | s :: rest, w =>
    match s.track with
    | none =>
      let out := removeStaleSenders clientTracks rest w
      (out.1, s :: out.2.1, out.2.2)
    | some t =>
      if clientTracks.has t.id then
        let out := removeStaleSenders clientTracks rest w
        (out.1, s :: out.2.1, out.2.2)
      else
        let w0 := signalingStateCheck w
        match w0.fail with
        | (true, w1) => (true, s :: rest, w1)
        | (false, w1) =>
          let out := removeStaleSenders clientTracks rest w1
          (out.1, out.2.1, out.2.2)

/-- The keys of the map `existingSenders` when the two loops over the senders and the
receivers are done (conference_room.go:197-222). -/
def existingSenders (pc : PeerConnection) : List String :=
  senderIDs pc ++ receiverIDs pc

/-- The loop over `clientTracks` (conference_room.go:225-231): every track whose key is
not in `existingSenders` is attached with `AddTrack`; a failure ends the attempt. -/
def addMissingTracks (existing : List String) :
    TrackMap → PeerConnection → World → Bool × PeerConnection × World
  | [], pc, w => (false, pc, w)
  | (trackID, t) :: rest, pc, w =>
    if existing.contains trackID then
      addMissingTracks existing rest pc w
    else
      match w.fail with
      | (true, w1) => (true, pc, w1)
      | (false, w1) => addMissingTracks existing rest (pc.AddTrack t) w1

/-- The session description the media stack builds for an offer, reduced to the ids of
the tracks it offers. -/
def offerString (pc : PeerConnection) : String :=
  String.intercalate "," (senderIDs pc)

/-- Lines 233-252: `CreateOffer`, `SetLocalDescription`, `json.Marshal`, `WriteJSON`, each
of which may fail and end the attempt. -/
def sendOffer (c : clientConnectionState) (w : World) : Bool × World :=
  match w.fail with
  | (true, w1) => (true, w1)
  | (false, w1) =>
    match w1.fail with
    | (true, w2) => (true, w2)
    | (false, w2) =>
      match w2.fail with
      | (true, w3) => (true, w3)
      | (false, w3) =>
        match w3.fail with
        | (true, w4) => (true, w4)
        | (false, w4) =>
          (false, { w4 with sent := w4.sent ++
            [(c.websocket, { Event := "offer", Data := offerString (w4.pcs c.peerConnection) })] })

/-- The body of the loop of `attemptSync` for a session that is not closed
(conference_room.go:196-252).  `true` is `return true`. -/
def syncPeer (clientTracks : TrackMap) (c : clientConnectionState) (w : World) : Bool × World :=
  let pc := w.pcs c.peerConnection
  let removed := removeStaleSenders clientTracks pc.senders w
  let pc1 : PeerConnection := { pc with senders := removed.2.1 }
  if removed.1 then
    (true, removed.2.2.setPC c.peerConnection pc1)
  else
    let added := addMissingTracks (existingSenders pc) clientTracks pc1 removed.2.2
    let w2 := added.2.2.setPC c.peerConnection added.2.1
    if added.1 then (true, w2) else sendOffer c w2

/-- What one attempt leaves behind. -/
structure SyncResult where
  tryAgain : Bool
  room : ConferenceRoom
  world : World

/-- The loop `for i := range r.conns` of `attemptSync` from index `i` on; the second
argument is `r.conns[i:]`. -/
def attemptSyncFrom (r : ConferenceRoom) :
    Nat → List clientConnectionState → World → SyncResult
  | _, [], w => { tryAgain := false, room := r, world := w }
  | i, c :: rest, w =>
    if (w.pcs c.peerConnection).connectionState = PeerConnectionState.Closed then
      { tryAgain := true
        room := { r with conns := r.conns.take i ++ r.conns.drop (i + 1) }
        world := w }
    else
      match syncPeer r.clientTracks c w with
      | (true, w1) => { tryAgain := true, room := r, world := w1 }
      | (false, w1) => attemptSyncFrom r (i + 1) rest w1

/-- The closure `attemptSync` (conference_room.go:189-256). -/
def attemptSync (r : ConferenceRoom) (w : World) : SyncResult :=
  attemptSyncFrom r 0 r.conns w

/-- The method `dispatchKeyFrame` (conference_room.go:106): one PLI for each receiver
with a track, on every session; write errors are dropped. -/
def dispatchKeyFrame (allRooms : webRTCServer) (r : ConferenceRoom) (w : World) : World :=
  if allRooms.has r.RoomID then
    { w with rtcp := w.rtcp ++ r.conns.flatMap (fun c =>
        (w.pcs c.peerConnection).receivers.filterMap (fun rc =>
          rc.track.map (fun t => (c.peerConnection, t.ssrc)))) }
  else w

/-- What a call of `signalPeerConnections` leaves behind.  `attempts` lists the value
returned by each run of `attemptSync`, in order; `retryScheduled` tells whether the
goroutine that sleeps three seconds and calls `signalPeerConnections` again was started. -/
structure SignalResult where
  room : ConferenceRoom
  world : World
  attempts : List Bool
  retryScheduled : Bool

/-- The loop `for syncAttempt := 0; ; syncAttempt++` (conference_room.go:258-271) with
`budget = 25 - syncAttempt` rounds left. -/
def syncLoop : Nat → ConferenceRoom → World → SignalResult
  | 0, r, w => { room := r, world := w, attempts := [], retryScheduled := true }
  | budget + 1, r, w =>
    let a := attemptSync r w
    if a.tryAgain then
      let out := syncLoop budget a.room a.world
      { out with attempts := true :: out.attempts }
    else
      { room := a.room, world := a.world, attempts := [false], retryScheduled := false }

/-- The method `signalPeerConnections` (conference_room.go:177-272). -/
def signalPeerConnections (allRooms : webRTCServer) (r : ConferenceRoom) (w : World) :
    SignalResult :=
  if allRooms.has r.RoomID then
    let out := syncLoop 25 r w
    { out with world := dispatchKeyFrame allRooms out.room out.world }
  else
    { room := r, world := w, attempts := [], retryScheduled := false }

/-! ## addTrack, removeTrack -/

/-- What `addTrack` leaves behind: the pointer it returns (`none` is nil), and the value
it panicked with when `NewTrackLocalStaticRTP` returned an error. -/
structure AddTrackResult where
  track : Option TrackLocalStaticRTP
  panicked : Option String
  room : ConferenceRoom
  world : World

/-- The method `addTrack` (conference_room.go:131-151).  The constructor of the media
stack is the first argument; it is given the codec, the id and the stream id of the
remote track.  The deferred function runs `signalPeerConnections` on every path that
took the lock. -/
def addTrack (NewTrackLocalStaticRTP : String → String → String → Except String TrackLocalStaticRTP)
    (allRooms : webRTCServer) (r : ConferenceRoom) (t : TrackRemote) (w : World) :
    AddTrackResult :=
  if allRooms.has r.RoomID then
    match NewTrackLocalStaticRTP t.codec t.id t.streamID with
    | Except.error err =>
      let s := signalPeerConnections allRooms r w
      { track := none, panicked := some err, room := s.room, world := s.world }
    | Except.ok trackLocal =>
      let r1 := { r with clientTracks := r.clientTracks.set t.id trackLocal }
      let s := signalPeerConnections allRooms r1 w
      { track := some trackLocal, panicked := none, room := s.room, world := s.world }
  else
    { track := none, panicked := none, room := r, world := w }

/-- The method `removeTrack` (conference_room.go:154-167). -/
def removeTrack (allRooms : webRTCServer) (r : ConferenceRoom) (t : TrackLocalStaticRTP)
    (w : World) : ConferenceRoom × World :=
  if allRooms.has r.RoomID then
    let r1 := { r with clientTracks := r.clientTracks.delete t.id }
    let s := signalPeerConnections allRooms r1 w
    (s.room, s.world)
  else
    (r, w)

/-! ## The lobby dispatcher -/

/-- A Go slice: the backing array from the first element of the slice up to its
capacity, and the length.  Elements at `len` and beyond are not part of the slice but
stay in memory. -/
structure GoSlice (α : Type) where
  array : List α
  len : Nat
deriving DecidableEq, Repr

/-- The elements of the slice. -/
def GoSlice.toList {α : Type} (s : GoSlice α) : List α :=
  s.array.take s.len

/-- The capacity `cap(s)`. -/
def GoSlice.cap {α : Type} (s : GoSlice α) : Nat :=
  s.array.length

/-- The expression `append(s[:i], s[i+1:]...)`.  `s[:i]` needs `i ≤ cap(s)` and `s[i+1:]`
needs `i+1 ≤ len(s)`, otherwise the runtime panics.  The elements after `i` are copied one
place down inside the same backing array; the old last place keeps its value. -/
def GoSlice.removeAt {α : Type} (s : GoSlice α) (i : Nat) : Except String (GoSlice α) :=
  if s.cap < i then
    Except.error "slice bounds out of range"
  else if s.len < i + 1 then
    Except.error "slice bounds out of range"
  else
    Except.ok
      { array := s.array.take i ++ (s.array.drop (i + 1)).take (s.len - (i + 1))
          ++ s.array.drop (s.len - 1)
        len := s.len - 1 }

/-- A buffered `chan string`. -/
structure Chan where
  buf : List String
  cap : Nat
deriving DecidableEq, Repr

/-- The statement `ch <- m`: `none` when the buffer is full, in which case the sender
waits. -/
def Chan.send (ch : Chan) (m : String) : Option Chan :=
  if ch.buf.length < ch.cap then some { ch with buf := ch.buf ++ [m] } else none

/-- The expression `<-ch`: `none` when the buffer is empty. -/
def Chan.recv (ch : Chan) : Option (String × Chan) :=
  match ch.buf with
  | [] => none
  | m :: rest => some (m, { ch with buf := rest })

/-- Struct `roomsInfoSignalingServer` (RoomInfoSignaling.go:13); a client is the address
of its websocket writer. -/
structure roomsInfoSignalingServer where
  Clients : GoSlice Nat
  UpdateSignal : Chan
deriving DecidableEq, Repr

/-- The function `newSignalingServer` (RoomInfoSignaling.go:55). -/
def newSignalingServer : roomsInfoSignalingServer :=
  { Clients := { array := List.replicate 10 0, len := 0 }
    UpdateSignal := { buf := [], cap := 10 } }

/-- How the handling of one update by the dispatcher ends. -/
inductive RunStatus where
  | running
  | returned
  | panicked (msg : String)
deriving DecidableEq, Repr

/-- What the handling of one update leaves behind; `writes` lists the clients on which
`WriteJSON` was called, in order, whether or not the call succeeded. -/
structure RunResult where
  server : roomsInfoSignalingServer
  world : World
  writes : List Nat
  status : RunStatus

/-- The loop `for i, client := range s.Clients` (RoomInfoSignaling.go:37-50) from index
`i` on, with `remaining` rounds to go.  The range was fixed when the loop started, and
`client` is read from the backing array, which the removals shift. -/
def runRange (infoStr : String) :
    Nat → Nat → roomsInfoSignalingServer → World → List Nat → RunResult
  | 0, _, s, w, writes => { server := s, world := w, writes := writes, status := RunStatus.running }
  | remaining + 1, i, s, w, writes =>
    match s.Clients.array.get? i with
    | none =>
      { server := s, world := w, writes := writes
        status := RunStatus.panicked "index out of range" }
    | some client =>
      match w.fail with
      | (true, w1) =>
        match s.Clients.removeAt i with
        | Except.error msg =>
          { server := s, world := w1, writes := writes ++ [client]
            status := RunStatus.panicked msg }
        | Except.ok clients =>
          runRange infoStr remaining (i + 1) { s with Clients := clients } w1
            (writes ++ [client])
      | (false, w1) =>
        runRange infoStr remaining (i + 1) s
          { w1 with sent := w1.sent ++ [(client, { Event := "info", Data := infoStr })] }
          (writes ++ [client])

/-- One round of `roomsInfoSignalingServer.run` (RoomInfoSignaling.go:24-53), for an
update received from `UpdateSignal`.  `infoStr` is the encoded snapshot of
`getIoomsInfo()`; `json.Marshal` may fail, and then `run` returns. -/
def run (infoStr : String) (s : roomsInfoSignalingServer) (w : World) : RunResult :=
  match w.fail with
  | (true, w1) => { server := s, world := w1, writes := [], status := RunStatus.returned }
  | (false, w1) => runRange infoStr s.Clients.len 0 s w1 []

/-! ## Rooms: creation and collection -/

/-- The two process-wide variables `allRooms` and `signalingServer`. -/
structure Globals where
  allRooms : webRTCServer
  signalingServer : roomsInfoSignalingServer
deriving DecidableEq, Repr

/-- What a publisher of lobby updates leaves behind; `blocked` when it is waiting on a
full `UpdateSignal`. -/
structure Published where
  globals : Globals
  blocked : Bool
deriving DecidableEq, Repr

/-- The statement `signalingServer.UpdateSignal <- signalStr`. -/
def publish (g : Globals) (signalStr : String) : Published :=
  match g.signalingServer.UpdateSignal.send signalStr with
  | some ch => { globals := { g with signalingServer := { g.signalingServer with UpdateSignal := ch } }
                 blocked := false }
  | none => { globals := g, blocked := true }

/-- The function `newConferenceRoom` (conference_room.go:66-89), for the id drawn by
`uuid.New()` and the time `time.Now()`. -/
def newConferenceRoom (newRoomID : UUID) (now : Nat) (g : Globals) : ConferenceRoom × Published :=
  let room : ConferenceRoom :=
    { RoomID := newRoomID, conns := [], clientTracks := [], createdTime := now }
  let g1 := { g with allRooms := g.allRooms.set newRoomID room }
  (room, publish g1 ("room ID " ++ newRoomID.text ++ " created."))

/-- One wake-up of `connectionsNumberCheck` (conference_room.go:94-101). -/
def gcWake (r : ConferenceRoom) (g : Globals) : Published :=
  if r.conns.length = 0 then
    let g1 := { g with allRooms := g.allRooms.delete r.RoomID }
    publish g1 ("room ID " ++ r.RoomID.text ++ " deleted")
  else
    { globals := g, blocked := false }

/-- The method `connectionsNumberCheck` (conference_room.go:92-103) over its first
`wakeups` wake-ups, the room staying as it is in between.  The loop has no exit; a
publisher that blocks stays blocked. -/
def connectionsNumberCheck (r : ConferenceRoom) : Nat → Globals → Published
  | 0, g => { globals := g, blocked := false }
  | wakeups + 1, g =>
    let p := gcWake r g
    if p.blocked then p else connectionsNumberCheck r wakeups p.globals

/-! ## JoinMeeting -/

/-- What `json.Unmarshal` makes of the bytes of a frame. -/
inductive Frame where
  /-- bytes for which `json.Unmarshal` returns an error -/
  | invalid
  /-- the JSON literal `null`, which sets the pointer decoded into to nil -/
  | null
  /-- a JSON object; each argument is the string the object gives under that key, and
  `none` when the object has no such key or gives the JSON `null` under it -/
  | object (event : Option String) (data : Option String)
deriving DecidableEq, Repr

/-- The call `json.Unmarshal(data, &message)` for the pointer `message`.  A key under which
the object gives a string overwrites the field; a key that is absent, or whose value is
the JSON `null`, leaves the field as it was. -/
def jsonUnmarshal (f : Frame) (message : Option websocketwebRTCMessage) :
    Except String (Option websocketwebRTCMessage) :=
  match f with
  | Frame.invalid => Except.error "invalid character"
  | Frame.null => Except.ok none
  | Frame.object event data =>
    let m := message.getD { Event := "", Data := "" }
    Except.ok (some { Event := event.getD m.Event, Data := data.getD m.Data })

/-- What the main loop does after one of its cases. -/
inductive LoopStatus where
  /-- back to the `select`, waiting for the next event -/
  | waiting
  /-- the handler returned -/
  | returned
  /-- a nil pointer was dereferenced -/
  | panicked
deriving DecidableEq, Repr

/-- The state of the main loop: the pointer `message` and the world. -/
structure LoopState where
  status : LoopStatus
  message : Option websocketwebRTCMessage
  world : World

/-- The case `data := <-webSocketData` of the main loop (webrtc.go:295-350). -/
def onFrame (c : clientConnectionState) (f : Frame) (message : Option websocketwebRTCMessage)
    (w : World) : LoopState :=
  match jsonUnmarshal f message with
  | Except.error _ => { status := LoopStatus.returned, message := message, world := w }
  | Except.ok none => { status := LoopStatus.panicked, message := none, world := w }
  | Except.ok (some m) =>
    if m.Event = "candidate" then
      match w.fail with
      | (true, w1) => { status := LoopStatus.returned, message := some m, world := w1 }
      | (false, w1) =>
        match w1.fail with
        | (true, w2) => { status := LoopStatus.returned, message := some m, world := w2 }
        | (false, w2) => { status := LoopStatus.waiting, message := some m, world := w2 }
    else if m.Event = "answer" then
      match w.fail with
      | (true, w1) => { status := LoopStatus.returned, message := some m, world := w1 }
      | (false, w1) =>
        match w1.fail with
        | (true, w2) => { status := LoopStatus.returned, message := some m, world := w2 }
        | (false, w2) => { status := LoopStatus.waiting, message := some m, world := w2 }
    else if m.Event = "addTrack" then
      match sendOffer c w with
      | (true, w1) => { status := LoopStatus.returned, message := some m, world := w1 }
      | (false, w1) => { status := LoopStatus.waiting, message := some m, world := w1 }
    else
      { status := LoopStatus.waiting, message := some m, world := w }

/-- What the `select` of the main loop can receive. -/
inductive LoopEvent where
  | tick
  | stop
  | frame (f : Frame)
deriving DecidableEq, Repr

/-- The main loop of `JoinMeeting` (webrtc.go:277-351) over the events it receives; it
is still waiting when they are used up. -/
def mainLoop (c : clientConnectionState) :
    List LoopEvent → Option websocketwebRTCMessage → World → LoopState
  | [], message, w => { status := LoopStatus.waiting, message := message, world := w }
  | LoopEvent.tick :: rest, message, w =>
    match w.fail with
    | (true, w1) => { status := LoopStatus.returned, message := message, world := w1 }
    | (false, w1) =>
      mainLoop c rest message
        { w1 with sent := w1.sent ++ [(c.websocket, { Event := "keepalive", Data := "" })] }
  | LoopEvent.stop :: _, message, w =>
    { status := LoopStatus.returned, message := message, world := w }
  | LoopEvent.frame f :: rest, message, w =>
    let s := onFrame c f message w
    match s.status with
    | LoopStatus.waiting => mainLoop c rest s.message s.world
    | _ => s

/-- A request to `/room/{roomid}/webSocket`, with the addresses at which the websocket
writer and the peer connection made for it are allocated. -/
structure JoinRequest where
  roomid : String
  websocket : Nat
  peerConnection : Nat
deriving DecidableEq, Repr

/-- What a call of `JoinMeeting` leaves behind: the status passed to `http.Error` if
any, the session appended to a room if any, whether `room.signalPeerConnections()` of
line 256 was called, and the state of the main loop when it was entered. -/
structure JoinResult where
  allRooms : webRTCServer
  world : World
  httpError : Option Nat
  session : Option clientConnectionState
  signalled : Bool
  loop : Option LoopStatus

/-- The replacement of the room stored under `id`, for a room changed through its
pointer. -/
def webRTCServer.store (s : webRTCServer) (id : UUID) (r : ConferenceRoom) : webRTCServer :=
  { Rooms := s.Rooms.map (fun kv => if kv.1 == id then (kv.1, r) else kv) }

/-- The call `pc.Close()`. -/
def World.closePC (w : World) (p : Nat) : World :=
  w.setPC p { w.pcs p with connectionState := PeerConnectionState.Closed }

/-- The loop over the three transceiver kinds (webrtc.go:149-160): each
`AddTransceiverFromKind` may fail; a receive-only transceiver brings a receiver that has
no track yet. -/
def addTransceivers (p : Nat) : Nat → World → Bool × World
  | 0, w => (false, w)
  | n + 1, w =>
    match w.fail with
    | (true, w1) => (true, w1)
    | (false, w1) =>
      let pc := w1.pcs p
      addTransceivers p n (w1.setPC p { pc with receivers := pc.receivers ++ [{ track := none }] })

/-- The handler `JoinMeeting` (webrtc.go:102-352).  `parse` is `uuid.Parse`, `events` is
what the main loop receives.  The deferred `pc.Close()` runs on every return after the
peer connection was made; once the state-change handler is registered, closing calls
`room.signalPeerConnections()`. -/
def JoinMeeting (parse : String → Option UUID) (allRooms : webRTCServer) (req : JoinRequest)
    (events : List LoopEvent) (w : World) : JoinResult :=
  match w.fail with
  | (true, w1) =>
    { allRooms := allRooms, world := w1, httpError := some 500, session := none
      signalled := false, loop := none }
  | (false, w1) =>
    match w1.fail with
    | (true, w2) =>
      { allRooms := allRooms, world := w2, httpError := some 500, session := none
        signalled := false, loop := none }
    | (false, w2) =>
      let w3 := w2.setPC req.peerConnection
        { connectionState := PeerConnectionState.New, senders := [], receivers := [] }
      match addTransceivers req.peerConnection 3 w3 with
      | (true, w4) =>
        { allRooms := allRooms, world := w4.closePC req.peerConnection, httpError := some 500
          session := none, signalled := false, loop := none }
      | (false, w4) =>
        match parse req.roomid with
        | none =>
          { allRooms := allRooms, world := w4.closePC req.peerConnection, httpError := some 400
            session := none, signalled := false, loop := none }
        | some roomID =>
          match allRooms.get roomID with
          | none =>
            { allRooms := allRooms, world := w4.closePC req.peerConnection
              httpError := some 400, session := none, signalled := false, loop := none }
          | some room =>
            let c : clientConnectionState :=
              { peerConnection := req.peerConnection, websocket := req.websocket }
            let room1 := { room with conns := room.conns ++ [c] }
            let s := signalPeerConnections allRooms room1 w4
            let l := mainLoop c events (some { Event := "", Data := "" }) s.world
            match l.status with
            | LoopStatus.waiting =>
              { allRooms := allRooms.store roomID s.room, world := l.world, httpError := none
                session := some c, signalled := true, loop := some l.status }
            | _ =>
              let s2 := signalPeerConnections allRooms s.room (l.world.closePC req.peerConnection)
              { allRooms := allRooms.store roomID s2.room, world := s2.world, httpError := none
                session := some c, signalled := true, loop := some l.status }

/-! ## RoomInfoSignaling -/

/-- The case `data := <-webSocketData` of the loop of `RoomInfoSignaling`
(RoomInfoSignaling.go:132-161), for the lobby client at `wsc`.  `infoStr` is the encoded
snapshot of `getIoomsInfo()`.  The event `update` is answered with an `info` frame; the
switch has no other case. -/
def onLobbyFrame (wsc : Nat) (infoStr : String) (f : Frame)
    (message : Option websocketwebRTCMessage) (w : World) : LoopState :=
  match jsonUnmarshal f message with
  | Except.error _ => { status := LoopStatus.returned, message := message, world := w }
  | Except.ok none => { status := LoopStatus.panicked, message := none, world := w }
  | Except.ok (some m) =>
    if m.Event = "update" then
      match w.fail with
      | (true, w1) => { status := LoopStatus.returned, message := some m, world := w1 }
      | (false, w1) =>
        match w1.fail with
        | (true, w2) => { status := LoopStatus.returned, message := some m, world := w2 }
        | (false, w2) =>
          { status := LoopStatus.waiting, message := some m
            world := { w2 with sent := w2.sent ++ [(wsc, { Event := "info", Data := infoStr })] } }
    else
      { status := LoopStatus.waiting, message := some m, world := w }

/-- The loop of `RoomInfoSignaling` (RoomInfoSignaling.go:114-163) over the events it
receives; it is still waiting when they are used up. -/
def lobbyLoop (wsc : Nat) (infoStr : String) :
    List LoopEvent → Option websocketwebRTCMessage → World → LoopState
  | [], message, w => { status := LoopStatus.waiting, message := message, world := w }
  | LoopEvent.tick :: rest, message, w =>
    match w.fail with
    | (true, w1) => { status := LoopStatus.returned, message := message, world := w1 }
    | (false, w1) =>
      lobbyLoop wsc infoStr rest message
        { w1 with sent := w1.sent ++ [(wsc, { Event := "keepalive", Data := "" })] }
  | LoopEvent.stop :: _, message, w =>
    { status := LoopStatus.returned, message := message, world := w }
  | LoopEvent.frame f :: rest, message, w =>
    let s := onLobbyFrame wsc infoStr f message w
    match s.status with
    | LoopStatus.waiting => lobbyLoop wsc infoStr rest s.message s.world
    | _ => s

/-! ## Predicates of the claims -/

/-- Every entry of the map sits under the id of its track, as `addTrack` stores it. -/
def TrackMap.keyedByID (m : TrackMap) : Prop :=
  ∀ kv ∈ m, kv.2.id = kv.1

/-- The peer sends no track that it also receives. -/
def NoLoopback (pc : PeerConnection) : Prop :=
  ∀ id ∈ senderIDs pc, id ∉ receiverIDs pc

/-- The sender track ids of the peer are the keys of the map minus the ids of the tracks
on its own receivers. -/
def Conserved (m : TrackMap) (pc : PeerConnection) : Prop :=
  ∀ id, id ∈ senderIDs pc ↔ (id ∈ m.keys ∧ id ∉ receiverIDs pc)

instance (m : TrackMap) : Decidable m.keyedByID := by
  unfold TrackMap.keyedByID; infer_instance

instance (pc : PeerConnection) : Decidable (NoLoopback pc) := by
  unfold NoLoopback; infer_instance

/-- The test `ConnectionState() == webrtc.PeerConnectionStateClosed` on the peer of a
session. -/
def World.isClosed (w : World) (c : clientConnectionState) : Bool :=
  decide ((w.pcs c.peerConnection).connectionState = PeerConnectionState.Closed)

/-- The frame leaves nothing of the old `message` in what is decoded: it does not decode,
it is `null`, or it is an object that gives a string under the key `event` and a string
under the key `data`, so that both fields are overwritten.  An object that has one of the
keys absent or `null`, such as one with `"event": null` and `"data": ""`, is not
complete. -/
def Frame.complete : Frame → Bool
  | Frame.invalid => true
  | Frame.null => true
  | Frame.object (some _) (some _) => true
  | Frame.object _ _ => false

/-! ## Concrete rooms -/

/-- A heap with two live peers: the peer at 1 publishes track `a` and still sends a track
`gone` that left the room, the peer at 2 publishes track `b`; every other address holds
a closed peer. -/
def twoPeerHeap : Nat → PeerConnection := fun p =>
  if p = 1 then
    { connectionState := PeerConnectionState.Connected
      senders := [{ track := some { codec := "video/VP8", id := "gone", streamID := "s0" } }]
      receivers := [{ track := some { codec := "video/VP8", id := "a", streamID := "s1", ssrc := 1 } },
        { track := none }] }
  else if p = 2 then
    { connectionState := PeerConnectionState.Connected
      senders := []
      receivers := [{ track := some { codec := "audio/opus", id := "b", streamID := "s2", ssrc := 2 } }] }
  else
    { connectionState := PeerConnectionState.Closed, senders := [], receivers := [] }

/-- A world over `twoPeerHeap` in which every library call succeeds. -/
def twoPeerWorld : World :=
  { pcs := twoPeerHeap, errs := [], sent := [], rtcp := [] }

/-- A room with the two live peers and both their tracks. -/
def twoPeerRoom : ConferenceRoom :=
  { RoomID := { text := "6ba7b810-9dad-11d1-80b4-00c04fd430c8" }
    conns := [{ peerConnection := 1, websocket := 11 }, { peerConnection := 2, websocket := 12 }]
    clientTracks :=
      [("a", { codec := "video/VP8", id := "a", streamID := "s1" }),
       ("b", { codec := "audio/opus", id := "b", streamID := "s2" })]
    createdTime := 0 }

/-- The same room with a closed peer between the two live ones. -/
def roomWithClosedPeer : ConferenceRoom :=
  { twoPeerRoom with
    conns := [{ peerConnection := 1, websocket := 11 }, { peerConnection := 3, websocket := 13 },
      { peerConnection := 2, websocket := 12 }] }

/-- A registry that holds the room. -/
def oneRoomRegistry : webRTCServer :=
  { Rooms := [(twoPeerRoom.RoomID, twoPeerRoom)] }

/-- A lobby with two subscribers, at the addresses 1 and 2, in the slice of capacity 10
that `newSignalingServer` makes. -/
def twoSubscribers : roomsInfoSignalingServer :=
  { Clients := { array := [1, 2, 0, 0, 0, 0, 0, 0, 0, 0], len := 2 }
    UpdateSignal := { buf := [], cap := 10 } }

/-- A lobby with three subscribers, at the addresses 1, 2 and 3. -/
def threeSubscribers : roomsInfoSignalingServer :=
  { Clients := { array := [1, 2, 3, 0, 0, 0, 0, 0, 0, 0], len := 3 }
    UpdateSignal := { buf := [], cap := 10 } }

/-- The process before any room exists. -/
def freshGlobals : Globals :=
  { allRooms := { Rooms := [] }, signalingServer := newSignalingServer }

/-- A constructor of forwarding tracks that succeeds: the track carries the codec, the id
and the stream id it was given. -/
def staticTrack (codec id streamID : String) : Except String TrackLocalStaticRTP :=
  Except.ok { codec := codec, id := id, streamID := streamID }

/-- A constructor of forwarding tracks that returns an error. -/
def brokenTrack (_codec _id _streamID : String) : Except String TrackLocalStaticRTP :=
  Except.error "codec mismatch"

/-- A remote track that is not in the room of two peers yet. -/
def newcomerTrack : TrackRemote :=
  { codec := "video/VP8", id := "c", streamID := "s3", ssrc := 3 }

/-- A `uuid.Parse` that knows the text of one id. -/
def parseOnly (known : UUID) (text : String) : Option UUID :=
  if text = known.text then some known else none

/-- A process whose `UpdateSignal` holds ten updates that the dispatcher has not taken
yet, the oldest first. -/
def fullGlobals : Globals :=
  { allRooms := { Rooms := [] }
    signalingServer :=
      { Clients := { array := List.replicate 10 0, len := 0 }
        UpdateSignal :=
          { buf := ["u0", "u1", "u2", "u3", "u4", "u5", "u6", "u7", "u8", "u9"], cap := 10 } } }

/-- A room of `n` sessions whose peers, at the addresses from 100 on, are all closed in
`twoPeerHeap`. -/
def closedCrowd (n : Nat) : ConferenceRoom :=
  { twoPeerRoom with
    conns := (List.range n).map (fun i => { peerConnection := 100 + i, websocket := 200 + i }) }

/-! ## Lemmas: the world and the maps -/

theorem World.fail_pcs (w : World) : w.fail.2.pcs = w.pcs := by
  unfold World.fail
  split <;> rfl

theorem World.fail_pcs_of {w w1 : World} {b : Bool} (h : w.fail = (b, w1)) : w1.pcs = w.pcs := by
  have := World.fail_pcs w
  rw [h] at this
  exact this

theorem TrackMap.has_iff_mem_keys (m : TrackMap) (k : String) :
    m.has k = true ↔ k ∈ m.keys := by
  unfold TrackMap.has TrackMap.keys
  simp only [List.any_eq_true, List.mem_map, beq_iff_eq]

theorem trackIDs_cons_none (s : RTPSender) (l : List RTPSender) (h : s.track = none) :
    trackIDs (s :: l) = trackIDs l := by
  simp [trackIDs, List.filterMap_cons, h]

theorem trackIDs_cons_some (s : RTPSender) (l : List RTPSender) (t : TrackLocalStaticRTP)
    (h : s.track = some t) : trackIDs (s :: l) = t.id :: trackIDs l := by
  simp [trackIDs, List.filterMap_cons, h]

theorem senderIDs_AddTrack (pc : PeerConnection) (t : TrackLocalStaticRTP) :
    senderIDs (pc.AddTrack t) = senderIDs pc ++ [t.id] := by
  simp [senderIDs, trackIDs, PeerConnection.AddTrack, List.filterMap_append]

/-! ## Lemmas: one session of an attempt -/

theorem removeStaleSenders_pcs (m : TrackMap) :
    ∀ (l : List RTPSender) (w : World), (removeStaleSenders m l w).2.2.pcs = w.pcs
  | [], _ => rfl
  | s :: rest, w => by
    unfold removeStaleSenders
    split
    · exact removeStaleSenders_pcs m rest w
    · split
      · exact removeStaleSenders_pcs m rest w
      · dsimp only [signalingStateCheck]
        split
        · next h => exact World.fail_pcs_of h
        · next h =>
          rw [removeStaleSenders_pcs m rest _]
          exact World.fail_pcs_of h

theorem removeStaleSenders_subset (m : TrackMap) :
    ∀ (l : List RTPSender) (w : World) (id : String),
      id ∈ trackIDs (removeStaleSenders m l w).2.1 → id ∈ trackIDs l
  | [], _, _ => fun h => h
  | s :: rest, w, id => by
    unfold removeStaleSenders
    split
    · next h =>
      simp only [trackIDs_cons_none _ _ h]
      exact removeStaleSenders_subset m rest w id
    · next t h =>
      split
      · simp only [trackIDs_cons_some _ _ t h, List.mem_cons]
        rintro (h1 | h1)
        · exact Or.inl h1
        · exact Or.inr (removeStaleSenders_subset m rest w id h1)
      · dsimp only [signalingStateCheck]
        split
        · exact fun h1 => h1
        · simp only [trackIDs_cons_some _ _ t h, List.mem_cons]
          intro h1
          exact Or.inr (removeStaleSenders_subset m rest _ id h1)

theorem removeStaleSenders_ok (m : TrackMap) :
    ∀ (l : List RTPSender) (w : World), (removeStaleSenders m l w).1 = false →
      ∀ id, id ∈ trackIDs (removeStaleSenders m l w).2.1 ↔ (id ∈ trackIDs l ∧ id ∈ m.keys)
  | [], _ => by
    intro _ id
    simp [removeStaleSenders, trackIDs]
  | s :: rest, w => by
    unfold removeStaleSenders
    split
    · next h =>
      intro hok id
      simp only [trackIDs_cons_none _ _ h]
      exact removeStaleSenders_ok m rest w hok id
    · next t h =>
      split
      · next hhas =>
        intro hok id
        simp only [trackIDs_cons_some _ _ t h, List.mem_cons]
        rw [removeStaleSenders_ok m rest w hok id]
        constructor
        · rintro (h1 | h1)
          · exact ⟨Or.inl h1, h1 ▸ (TrackMap.has_iff_mem_keys m t.id).1 hhas⟩
          · exact ⟨Or.inr h1.1, h1.2⟩
        · rintro ⟨h1 | h1, h2⟩
          · exact Or.inl h1
          · exact Or.inr ⟨h1, h2⟩
      · next hhas =>
        dsimp only [signalingStateCheck]
        split
        · intro hok
          simp at hok
        · intro hok id
          simp only [trackIDs_cons_some _ _ t h, List.mem_cons]
          rw [removeStaleSenders_ok m rest _ hok id]
          constructor
          · rintro ⟨h1, h2⟩
            exact ⟨Or.inr h1, h2⟩
          · rintro ⟨h1 | h1, h2⟩
            · exact absurd ((TrackMap.has_iff_mem_keys m t.id).2 (h1 ▸ h2)) hhas
            · exact ⟨h1, h2⟩

theorem addMissingTracks_pcs (e : List String) :
    ∀ (m : TrackMap) (pc : PeerConnection) (w : World),
      (addMissingTracks e m pc w).2.2.pcs = w.pcs
  | [], _, _ => rfl
  | (k, t) :: rest, pc, w => by
    unfold addMissingTracks
    split
    · exact addMissingTracks_pcs e rest pc w
    · split
      · next h => exact World.fail_pcs_of h
      · next h =>
        rw [addMissingTracks_pcs e rest _ _]
        exact World.fail_pcs_of h

theorem addMissingTracks_fixed (e : List String) :
    ∀ (m : TrackMap) (pc : PeerConnection) (w : World),
      (addMissingTracks e m pc w).2.1.receivers = pc.receivers ∧
      (addMissingTracks e m pc w).2.1.connectionState = pc.connectionState
  | [], _, _ => ⟨rfl, rfl⟩
  | (k, t) :: rest, pc, w => by
    unfold addMissingTracks
    split
    · exact addMissingTracks_fixed e rest pc w
    · split
      · exact ⟨rfl, rfl⟩
      · exact addMissingTracks_fixed e rest (pc.AddTrack t) _

theorem addMissingTracks_new (e : List String) :
    ∀ (m : TrackMap) (pc : PeerConnection) (w : World) (id : String),
      id ∈ senderIDs (addMissingTracks e m pc w).2.1 →
      id ∈ senderIDs pc ∨ ∃ kv ∈ m, kv.2.id = id ∧ e.contains kv.1 = false
  | [], _, _, _ => fun h => Or.inl h
  | (k, t) :: rest, pc, w, id => by
    unfold addMissingTracks
    split
    · intro h
      rcases addMissingTracks_new e rest pc w id h with h1 | ⟨kv, hkv, h2⟩
      · exact Or.inl h1
      · exact Or.inr ⟨kv, List.mem_cons_of_mem _ hkv, h2⟩
    · next hk =>
      split
      · exact fun h => Or.inl h
      · intro h
        rcases addMissingTracks_new e rest _ _ id h with h1 | ⟨kv, hkv, h2⟩
        · rw [senderIDs_AddTrack, List.mem_append, List.mem_singleton] at h1
          rcases h1 with h1 | h1
          · exact Or.inl h1
          · exact Or.inr ⟨(k, t), List.mem_cons_self _ _, h1.symm, by simpa using hk⟩
        · exact Or.inr ⟨kv, List.mem_cons_of_mem _ hkv, h2⟩

theorem addMissingTracks_ok (e : List String) :
    ∀ (m : TrackMap) (pc : PeerConnection) (w : World),
      (addMissingTracks e m pc w).1 = false →
      ∀ id, (id ∈ senderIDs pc ∨ ∃ kv ∈ m, kv.2.id = id ∧ e.contains kv.1 = false) →
        id ∈ senderIDs (addMissingTracks e m pc w).2.1
  | [], _, _ => by
    intro _ id h
    rcases h with h | ⟨kv, hkv, _⟩
    · exact h
    · cases hkv
  | (k, t) :: rest, pc, w => by
    unfold addMissingTracks
    split
    · next hk =>
      intro hok id h
      apply addMissingTracks_ok e rest pc w hok id
      rcases h with h | ⟨kv, hkv, h2, h3⟩
      · exact Or.inl h
      · rcases List.mem_cons.1 hkv with h4 | h4
        · subst h4
          rw [hk] at h3
          cases h3
        · exact Or.inr ⟨kv, h4, h2, h3⟩
    · split
      · intro hok
        simp at hok
      · intro hok id h
        apply addMissingTracks_ok e rest _ _ hok id
        rcases h with h | ⟨kv, hkv, h2, h3⟩
        · left
          rw [senderIDs_AddTrack]
          exact List.mem_append_left _ h
        · rcases List.mem_cons.1 hkv with h4 | h4
          · subst h4
            left
            rw [senderIDs_AddTrack, ← h2]
            simp
          · exact Or.inr ⟨kv, h4, h2, h3⟩

theorem sendOffer_pcs (c : clientConnectionState) (w : World) : (sendOffer c w).2.pcs = w.pcs := by
  unfold sendOffer
  split
  · next h => exact World.fail_pcs_of h
  · next h =>
    split
    · next h1 => exact (World.fail_pcs_of h1).trans (World.fail_pcs_of h)
    · next h1 =>
      split
      · next h2 =>
        exact (World.fail_pcs_of h2).trans ((World.fail_pcs_of h1).trans (World.fail_pcs_of h))
      · next h2 =>
        split
        · next h3 =>
          exact (World.fail_pcs_of h3).trans ((World.fail_pcs_of h2).trans
            ((World.fail_pcs_of h1).trans (World.fail_pcs_of h)))
        · next h3 =>
          exact (World.fail_pcs_of h3).trans ((World.fail_pcs_of h2).trans
            ((World.fail_pcs_of h1).trans (World.fail_pcs_of h)))

/-- What `syncPeer` does to the heap: it rewrites the peer of the session, keeps its
receivers and its state, adds only tracks whose key was not in `existingSenders`, and when
it runs to its end the senders are the old ones still in the map plus the missing ones. -/
theorem syncPeer_spec (m : TrackMap) (c : clientConnectionState) (w : World) :
    ∃ pc : PeerConnection,
      (syncPeer m c w).2.pcs = Function.update w.pcs c.peerConnection pc ∧
      pc.receivers = (w.pcs c.peerConnection).receivers ∧
      pc.connectionState = (w.pcs c.peerConnection).connectionState ∧
      (∀ id ∈ senderIDs pc, id ∈ senderIDs (w.pcs c.peerConnection) ∨
        ∃ kv ∈ m, kv.2.id = id ∧
          (existingSenders (w.pcs c.peerConnection)).contains kv.1 = false) ∧
      ((syncPeer m c w).1 = false →
        ∀ id, ((id ∈ senderIDs (w.pcs c.peerConnection) ∧ id ∈ m.keys) ∨
          ∃ kv ∈ m, kv.2.id = id ∧
            (existingSenders (w.pcs c.peerConnection)).contains kv.1 = false) →
          id ∈ senderIDs pc) ∧
      ((syncPeer m c w).1 = false →
        ∀ id ∈ senderIDs pc, (id ∈ senderIDs (w.pcs c.peerConnection) ∧ id ∈ m.keys) ∨
          ∃ kv ∈ m, kv.2.id = id ∧
            (existingSenders (w.pcs c.peerConnection)).contains kv.1 = false) := by
  unfold syncPeer
  dsimp only
  split
  · next hrem =>
    refine ⟨{ w.pcs c.peerConnection with
      senders := (removeStaleSenders m (w.pcs c.peerConnection).senders w).2.1 }, ?_, rfl, rfl,
      ?_, ?_, ?_⟩
    · simp only [World.setPC, removeStaleSenders_pcs]
    · intro id hid
      exact Or.inl (removeStaleSenders_subset m _ w id hid)
    · intro h
      simp at h
    · intro h
      simp at h
  · next hrem =>
    have hrem' : (removeStaleSenders m (w.pcs c.peerConnection).senders w).1 = false := by
      simpa using hrem
    have hfix := addMissingTracks_fixed (existingSenders (w.pcs c.peerConnection)) m
      { w.pcs c.peerConnection with
        senders := (removeStaleSenders m (w.pcs c.peerConnection).senders w).2.1 }
      (removeStaleSenders m (w.pcs c.peerConnection).senders w).2.2
    have hnew := addMissingTracks_new (existingSenders (w.pcs c.peerConnection)) m
      { w.pcs c.peerConnection with
        senders := (removeStaleSenders m (w.pcs c.peerConnection).senders w).2.1 }
      (removeStaleSenders m (w.pcs c.peerConnection).senders w).2.2
    have hok := addMissingTracks_ok (existingSenders (w.pcs c.peerConnection)) m
      { w.pcs c.peerConnection with
        senders := (removeStaleSenders m (w.pcs c.peerConnection).senders w).2.1 }
      (removeStaleSenders m (w.pcs c.peerConnection).senders w).2.2
    have hpcs := addMissingTracks_pcs (existingSenders (w.pcs c.peerConnection)) m
      { w.pcs c.peerConnection with
        senders := (removeStaleSenders m (w.pcs c.peerConnection).senders w).2.1 }
      (removeStaleSenders m (w.pcs c.peerConnection).senders w).2.2
    have hremok := removeStaleSenders_ok m (w.pcs c.peerConnection).senders w hrem'
    refine ⟨_, ?_, hfix.1, hfix.2, ?_, ?_, ?_⟩
    · split
      · simp only [World.setPC, hpcs, removeStaleSenders_pcs]
      · rw [sendOffer_pcs]
        simp only [World.setPC, hpcs, removeStaleSenders_pcs]
    · intro id hid
      rcases hnew id hid with h1 | h1
      · exact Or.inl (removeStaleSenders_subset m _ w id h1)
      · exact Or.inr h1
    · intro hdone id hid
      have hadd : (addMissingTracks (existingSenders (w.pcs c.peerConnection)) m
          { w.pcs c.peerConnection with
            senders := (removeStaleSenders m (w.pcs c.peerConnection).senders w).2.1 }
          (removeStaleSenders m (w.pcs c.peerConnection).senders w).2.2).1 = false := by
        by_contra hne
        simp only [Bool.not_eq_false] at hne
        rw [if_pos hne] at hdone
        simp at hdone
      apply hok hadd id
      rcases hid with h1 | h1
      · exact Or.inl ((hremok id).2 h1)
      · exact Or.inr h1
    · intro hdone id hid
      rcases hnew id hid with h1 | h1
      · exact Or.inl ((hremok id).1 h1)
      · exact Or.inr h1

theorem existingSenders_contains_false (pc : PeerConnection) (k : String) :
    (existingSenders pc).contains k = false ↔ (k ∉ senderIDs pc ∧ k ∉ receiverIDs pc) := by
  simp [existingSenders, not_or]

theorem syncPeer_frame (m : TrackMap) (c : clientConnectionState) (w : World) (q : Nat)
    (hq : q ≠ c.peerConnection) : (syncPeer m c w).2.pcs q = w.pcs q := by
  obtain ⟨pc, h, _⟩ := syncPeer_spec m c w
  rw [h, Function.update_noteq hq]

theorem syncPeer_fixed (m : TrackMap) (c : clientConnectionState) (w : World) (q : Nat) :
    ((syncPeer m c w).2.pcs q).receivers = (w.pcs q).receivers ∧
    ((syncPeer m c w).2.pcs q).connectionState = (w.pcs q).connectionState := by
  obtain ⟨pc, h, h1, h2, _⟩ := syncPeer_spec m c w
  by_cases hq : q = c.peerConnection
  · subst hq
    rw [h, Function.update_same]
    exact ⟨h1, h2⟩
  · rw [h, Function.update_noteq hq]
    exact ⟨rfl, rfl⟩

theorem syncPeer_new (m : TrackMap) (hkeys : m.keyedByID) (c : clientConnectionState)
    (w : World) (q : Nat) (id : String)
    (hid : id ∈ senderIDs ((syncPeer m c w).2.pcs q)) (hold : id ∉ senderIDs (w.pcs q)) :
    id ∉ receiverIDs (w.pcs q) := by
  obtain ⟨pc, h, _, _, h3, _⟩ := syncPeer_spec m c w
  by_cases hq : q = c.peerConnection
  · subst hq
    rw [h, Function.update_same] at hid
    rcases h3 id hid with h4 | ⟨kv, hkv, h5, h6⟩
    · exact absurd h4 hold
    · rw [existingSenders_contains_false, ← hkeys kv hkv, h5] at h6
      exact h6.2
  · rw [h, Function.update_noteq hq] at hid
    exact absurd hid hold

theorem syncPeer_conserved (m : TrackMap) (hkeys : m.keyedByID) (c : clientConnectionState)
    (w : World) (hno : NoLoopback (w.pcs c.peerConnection))
    (hdone : (syncPeer m c w).1 = false) :
    Conserved m ((syncPeer m c w).2.pcs c.peerConnection) := by
  obtain ⟨pc, h, h1, _, _, h4, h5⟩ := syncPeer_spec m c w
  rw [h, Function.update_same]
  intro id
  have hrecv : receiverIDs pc = receiverIDs (w.pcs c.peerConnection) := by
    unfold receiverIDs
    rw [h1]
  rw [hrecv]
  constructor
  · intro hid
    rcases h5 hdone id hid with ⟨h6, h7⟩ | ⟨kv, hkv, h6, h7⟩
    · exact ⟨h7, hno id h6⟩
    · rw [existingSenders_contains_false, ← hkeys kv hkv, h6] at h7
      refine ⟨?_, h7.2⟩
      have : kv.1 ∈ m.keys := List.mem_map_of_mem (fun kv => kv.1) hkv
      rw [← hkeys kv hkv, h6] at this
      exact this
  · rintro ⟨hk, hr⟩
    apply h4 hdone id
    by_cases hs : id ∈ senderIDs (w.pcs c.peerConnection)
    · exact Or.inl ⟨hs, hk⟩
    · right
      obtain ⟨kv, hkv, hkv1⟩ := List.mem_map.1 hk
      refine ⟨kv, hkv, (hkeys kv hkv).trans hkv1, ?_⟩
      rw [existingSenders_contains_false, hkv1]
      exact ⟨hs, hr⟩

theorem Conserved.noLoopback {m : TrackMap} {pc : PeerConnection} (h : Conserved m pc) :
    NoLoopback pc :=
  fun id hid => ((h id).1 hid).2

/-! ## Lemmas: one attempt -/

theorem attemptSyncFrom_fixed (r : ConferenceRoom) :
    ∀ (todo : List clientConnectionState) (i : Nat) (w : World) (q : Nat),
      ((attemptSyncFrom r i todo w).world.pcs q).receivers = (w.pcs q).receivers ∧
      ((attemptSyncFrom r i todo w).world.pcs q).connectionState = (w.pcs q).connectionState
  | [], _, _, _ => ⟨rfl, rfl⟩
  | c :: rest, i, w, q => by
    unfold attemptSyncFrom
    split
    · exact ⟨rfl, rfl⟩
    · split
      · next w1 h =>
        have := syncPeer_fixed r.clientTracks c w q
        rw [h] at this
        exact this
      · next w1 h =>
        have h1 := syncPeer_fixed r.clientTracks c w q
        rw [h] at h1
        have h2 := attemptSyncFrom_fixed r rest (i + 1) w1 q
        exact ⟨h2.1.trans h1.1, h2.2.trans h1.2⟩

theorem attemptSyncFrom_room (r : ConferenceRoom) :
    ∀ (todo : List clientConnectionState) (i : Nat) (w : World),
      (attemptSyncFrom r i todo w).tryAgain = false → (attemptSyncFrom r i todo w).room = r
  | [], _, _ => fun _ => rfl
  | c :: rest, i, w => by
    unfold attemptSyncFrom
    split
    · intro h
      simp at h
    · split
      · intro h
        simp at h
      · exact attemptSyncFrom_room r rest (i + 1) _

theorem attemptSyncFrom_new (r : ConferenceRoom) (hkeys : r.clientTracks.keyedByID) :
    ∀ (todo : List clientConnectionState) (i : Nat) (w : World) (q : Nat) (id : String),
      id ∈ senderIDs ((attemptSyncFrom r i todo w).world.pcs q) →
      id ∉ senderIDs (w.pcs q) → id ∉ receiverIDs (w.pcs q)
  | [], _, _, _, _ => fun h hn => absurd h hn
  | c :: rest, i, w, q, id => by
    unfold attemptSyncFrom
    split
    · exact fun h hn => absurd h hn
    · have hnew := syncPeer_new r.clientTracks hkeys c w q id
      have hfix := (syncPeer_fixed r.clientTracks c w q).1
      split
      · next w1 h =>
        rw [h] at hnew
        exact hnew
      · next w1 h =>
        rw [h] at hnew hfix
        intro hid hold
        by_cases h1 : id ∈ senderIDs (w1.pcs q)
        · exact hnew h1 hold
        · have := attemptSyncFrom_new r hkeys rest (i + 1) w1 q id hid h1
          unfold receiverIDs at this ⊢
          rw [← hfix]
          exact this

theorem attemptSyncFrom_conserved (r : ConferenceRoom) (hkeys : r.clientTracks.keyedByID) :
    ∀ (todo : List clientConnectionState) (i : Nat) (w : World),
      (∀ c ∈ todo, NoLoopback (w.pcs c.peerConnection)) →
      (attemptSyncFrom r i todo w).tryAgain = false →
      ∀ q, (Conserved r.clientTracks (w.pcs q) ∨ ∃ c ∈ todo, c.peerConnection = q) →
        Conserved r.clientTracks ((attemptSyncFrom r i todo w).world.pcs q)
  | [], _, _ => by
    intro _ _ q h
    rcases h with h | ⟨c, hc, _⟩
    · exact h
    · cases hc
  | c :: rest, i, w => by
    unfold attemptSyncFrom
    split
    · intro _ h
      simp at h
    · have hcons := syncPeer_conserved r.clientTracks hkeys c w
      have hframe := syncPeer_frame r.clientTracks c w
      split
      · intro _ h
        simp at h
      · next w1 h =>
        rw [h] at hcons hframe
        intro hno hdone q hq
        have hc : Conserved r.clientTracks (w1.pcs c.peerConnection) :=
          hcons (hno c (List.mem_cons_self _ _)) rfl
        apply attemptSyncFrom_conserved r hkeys rest (i + 1) w1 _ hdone q
        · by_cases hqc : q = c.peerConnection
          · subst hqc
            exact Or.inl hc
          · rcases hq with hq | ⟨d, hd, hdq⟩
            · left
              rw [hframe q hqc]
              exact hq
            · rcases List.mem_cons.1 hd with hd1 | hd1
              · subst hd1
                exact absurd hdq.symm hqc
              · exact Or.inr ⟨d, hd1, hdq⟩
        · intro d hd
          by_cases hdc : d.peerConnection = c.peerConnection
          · rw [hdc]
            exact hc.noLoopback
          · rw [hframe d.peerConnection hdc]
            exact hno d (List.mem_cons_of_mem _ hd)

/-! ## C1, C2: what one attempt does to the senders -/

/-- C1 (track conservation).  Take a room whose map of tracks is keyed by track id and in
which no session sends a track that it also receives.  If one run of `attemptSync` ends
without asking for a restart, then every session in `conns` sends exactly the tracks
whose id is a key of `clientTracks` and is not the id of a track on one of its own
receivers. -/
theorem attemptSync_track_conservation (r : ConferenceRoom) (w : World)
    (hkeys : r.clientTracks.keyedByID)
    (hpre : ∀ c ∈ r.conns, NoLoopback (w.pcs c.peerConnection))
    (hdone : (attemptSync r w).tryAgain = false) :
    ∀ c ∈ (attemptSync r w).room.conns, ∀ id,
      id ∈ senderIDs ((attemptSync r w).world.pcs c.peerConnection) ↔
        (id ∈ (attemptSync r w).room.clientTracks.keys ∧
          id ∉ receiverIDs ((attemptSync r w).world.pcs c.peerConnection)) := by
  have hroom : (attemptSync r w).room = r := attemptSyncFrom_room r r.conns 0 w hdone
  rw [hroom]
  intro c hc
  exact attemptSyncFrom_conserved r hkeys r.conns 0 w hpre hdone c.peerConnection
    (Or.inr ⟨c, hc, rfl⟩)

/-- The hypotheses of C1 hold for the room of two peers, and there the conclusion says
that peer 1 ends up sending `b` only and peer 2 sending `a` only. -/
theorem attemptSync_track_conservation_witness :
    twoPeerRoom.clientTracks.keyedByID ∧
    (∀ c ∈ twoPeerRoom.conns, NoLoopback (twoPeerWorld.pcs c.peerConnection)) ∧
    (attemptSync twoPeerRoom twoPeerWorld).tryAgain = false ∧
    (∀ c ∈ (attemptSync twoPeerRoom twoPeerWorld).room.conns, ∀ id,
      id ∈ senderIDs ((attemptSync twoPeerRoom twoPeerWorld).world.pcs c.peerConnection) ↔
        (id ∈ (attemptSync twoPeerRoom twoPeerWorld).room.clientTracks.keys ∧
          id ∉ receiverIDs ((attemptSync twoPeerRoom twoPeerWorld).world.pcs c.peerConnection))) :=
  ⟨by decide, by decide, by decide,
    attemptSync_track_conservation twoPeerRoom twoPeerWorld (by decide) (by decide) (by decide)⟩

/-- C2 (no self-subscription).  In a room whose map of tracks is keyed by track id, a run
of `attemptSync` gives no peer a sender for a track it did not send before and whose id
is the id of a track on one of its receivers; so when no session of `conns` sends a track
it also receives before the run, none does after it, whatever the run returns. -/
theorem attemptSync_no_self_subscription (r : ConferenceRoom) (w : World)
    (hkeys : r.clientTracks.keyedByID) :
    (∀ p id, id ∈ senderIDs ((attemptSync r w).world.pcs p) → id ∉ senderIDs (w.pcs p) →
      id ∉ receiverIDs (w.pcs p)) ∧
    ((∀ c ∈ r.conns, NoLoopback (w.pcs c.peerConnection)) →
      ∀ c ∈ r.conns, NoLoopback ((attemptSync r w).world.pcs c.peerConnection)) := by
  have hnew := attemptSyncFrom_new r hkeys r.conns 0 w
  refine ⟨hnew, ?_⟩
  intro hpre c hc id hid hrecv
  have hfix := (attemptSyncFrom_fixed r r.conns 0 w c.peerConnection).1
  have hrecv' : id ∈ receiverIDs (w.pcs c.peerConnection) := by
    unfold receiverIDs at hrecv ⊢
    rw [← hfix]
    exact hrecv
  by_cases hold : id ∈ senderIDs (w.pcs c.peerConnection)
  · exact hpre c hc id hold hrecv'
  · exact hnew c.peerConnection id hid hold hrecv'

/-- The hypothesis of C2 holds for the room with a closed peer, in a world where the
second library call fails. -/
theorem attemptSync_no_self_subscription_witness :
    roomWithClosedPeer.clientTracks.keyedByID ∧
    (∀ c ∈ roomWithClosedPeer.conns,
      NoLoopback ({ twoPeerWorld with errs := [false, true] }.pcs c.peerConnection)) ∧
    (∀ c ∈ roomWithClosedPeer.conns,
      NoLoopback ((attemptSync roomWithClosedPeer
        { twoPeerWorld with errs := [false, true] }).world.pcs c.peerConnection)) :=
  ⟨by decide, by decide,
    (attemptSync_no_self_subscription roomWithClosedPeer
      { twoPeerWorld with errs := [false, true] } (by decide)).2 (by decide)⟩

/-! ## Lemmas: an attempt in which every library call succeeds -/

theorem World.fail_nil (w : World) (h : w.errs = []) : w.fail = (false, w) := by
  unfold World.fail
  rw [h]

theorem removeStaleSenders_nil (m : TrackMap) :
    ∀ (l : List RTPSender) (w : World), w.errs = [] →
      (removeStaleSenders m l w).1 = false ∧ (removeStaleSenders m l w).2.2 = w
  | [], _ => fun _ => ⟨rfl, rfl⟩
  | s :: rest, w => by
    intro h
    unfold removeStaleSenders
    split
    · exact removeStaleSenders_nil m rest w h
    · split
      · exact removeStaleSenders_nil m rest w h
      · dsimp only [signalingStateCheck]
        rw [World.fail_nil w h]
        exact removeStaleSenders_nil m rest w h

theorem addMissingTracks_nil (e : List String) :
    ∀ (m : TrackMap) (pc : PeerConnection) (w : World), w.errs = [] →
      (addMissingTracks e m pc w).1 = false ∧ (addMissingTracks e m pc w).2.2 = w
  | [], _, _ => fun _ => ⟨rfl, rfl⟩
  | (k, t) :: rest, pc, w => by
    intro h
    unfold addMissingTracks
    split
    · exact addMissingTracks_nil e rest pc w h
    · rw [World.fail_nil w h]
      exact addMissingTracks_nil e rest _ w h

theorem sendOffer_nil (c : clientConnectionState) (w : World) (h : w.errs = []) :
    (sendOffer c w).1 = false ∧ (sendOffer c w).2.errs = [] := by
  unfold sendOffer
  constructor <;> simp [World.fail_nil w h, h]

theorem syncPeer_nil (m : TrackMap) (c : clientConnectionState) (w : World) (h : w.errs = []) :
    (syncPeer m c w).1 = false ∧ (syncPeer m c w).2.errs = [] := by
  unfold syncPeer
  dsimp only
  have h1 := removeStaleSenders_nil m (w.pcs c.peerConnection).senders w h
  rw [h1.1, h1.2]
  simp only [Bool.false_eq_true, if_false]
  have h2 := addMissingTracks_nil (existingSenders (w.pcs c.peerConnection)) m
    { w.pcs c.peerConnection with
      senders := (removeStaleSenders m (w.pcs c.peerConnection).senders w).2.1 } w h
  rw [h2.1, h2.2]
  simp only [Bool.false_eq_true, if_false]
  exact sendOffer_nil c _ h

/-! ## Lemmas: pruning -/

theorem drop_eq_cons_facts {α : Type} (l : List α) (i : Nat) (c : α) (rest : List α)
    (h : l.drop i = c :: rest) :
    l[i]? = some c ∧ l.drop (i + 1) = rest ∧ l.take (i + 1) = l.take i ++ [c] := by
  have h1 : l[i]? = some c := by
    have := List.getElem?_drop l i 0
    rw [h] at this
    simpa using this.symm
  refine ⟨h1, ?_, ?_⟩
  · rw [← List.tail_drop, h]
    rfl
  · rw [List.take_succ, h1]
    rfl

theorem filter_eraseIdx_of_false {α : Type} (p : α → Bool) :
    ∀ (l : List α) (j : Nat) (c : α), l[j]? = some c → p c = false →
      (l.eraseIdx j).filter p = l.filter p
  | [], _, _, h, _ => by simp at h
  | a :: l, 0, c, h, hp => by
    simp at h
    subst h
    simp [hp]
  | a :: l, j + 1, c, h, hp => by
    simp at h
    simp [List.eraseIdx_cons_succ, List.filter_cons, filter_eraseIdx_of_false p l j c h hp]

theorem World.isClosed_congr (w1 w : World)
    (h : ∀ q, (w1.pcs q).connectionState = (w.pcs q).connectionState) :
    w1.isClosed = w.isClosed := by
  funext c
  unfold World.isClosed
  rw [h]

theorem attemptSyncFrom_isClosed (r : ConferenceRoom) (todo : List clientConnectionState)
    (i : Nat) (w : World) : (attemptSyncFrom r i todo w).world.isClosed = w.isClosed :=
  World.isClosed_congr _ _ (fun q => (attemptSyncFrom_fixed r todo i w q).2)

theorem syncPeer_isClosed (m : TrackMap) (c : clientConnectionState) (w : World) :
    (syncPeer m c w).2.isClosed = w.isClosed :=
  World.isClosed_congr _ _ (fun q => (syncPeer_fixed m c w q).2)

/-- An attempt either leaves `conns` alone or removes the first closed session and asks
for a restart. -/
theorem attemptSyncFrom_conns (r : ConferenceRoom) :
    ∀ (todo : List clientConnectionState) (i : Nat) (w : World),
      r.conns.drop i = todo → (∀ d ∈ r.conns.take i, w.isClosed d = false) →
      ((attemptSyncFrom r i todo w).room.conns = r.conns ∧
        (w.errs = [] → (attemptSyncFrom r i todo w).tryAgain = false)) ∨
      ((attemptSyncFrom r i todo w).tryAgain = true ∧
        ∃ j c, r.conns[j]? = some c ∧ w.isClosed c = true ∧
          (∀ d ∈ r.conns.take j, w.isClosed d = false) ∧
          (attemptSyncFrom r i todo w).room.conns = r.conns.eraseIdx j)
  | [], _, _ => fun _ _ => Or.inl ⟨rfl, fun _ => rfl⟩
  | c :: rest, i, w => by
    intro hdrop hbefore
    obtain ⟨hget, hrest, htake⟩ := drop_eq_cons_facts r.conns i c rest hdrop
    unfold attemptSyncFrom
    split
    · next hclosed =>
      right
      refine ⟨rfl, i, c, hget, ?_, hbefore, ?_⟩
      · unfold World.isClosed
        exact decide_eq_true hclosed
      · simp only []
        rw [List.eraseIdx_eq_take_drop_succ]
    · next hopen =>
      have hcl := syncPeer_isClosed r.clientTracks c w
      have hnil := syncPeer_nil r.clientTracks c w
      split
      · next w1 h =>
        rw [h] at hnil
        refine Or.inl ⟨rfl, fun he => ?_⟩
        have := (hnil he).1
        simp at this
      · next w1 h =>
        rw [h] at hcl hnil
        have hbefore1 : ∀ d ∈ r.conns.take (i + 1), w1.isClosed d = false := by
          intro d hd
          rw [hcl]
          rw [htake, List.mem_append, List.mem_singleton] at hd
          rcases hd with hd | hd
          · exact hbefore d hd
          · subst hd
            unfold World.isClosed
            exact decide_eq_false hopen
        have := attemptSyncFrom_conns r rest (i + 1) w1 hrest hbefore1
        rw [hcl] at this
        rcases this with ⟨h1, h2⟩ | h1
        · exact Or.inl ⟨h1, fun he => h2 (hnil he).2⟩
        · exact Or.inr h1

theorem attemptSyncFrom_done_open (r : ConferenceRoom) :
    ∀ (todo : List clientConnectionState) (i : Nat) (w : World),
      (attemptSyncFrom r i todo w).tryAgain = false → ∀ c ∈ todo, w.isClosed c = false
  | [], _, _ => by
    intro _ c hc
    cases hc
  | c :: rest, i, w => by
    unfold attemptSyncFrom
    split
    · intro h
      simp at h
    · next hopen =>
      have hcl := syncPeer_isClosed r.clientTracks c w
      split
      · intro h
        simp at h
      · next w1 h =>
        rw [h] at hcl
        intro hdone d hd
        rcases List.mem_cons.1 hd with hd1 | hd1
        · subst hd1
          unfold World.isClosed
          exact decide_eq_false hopen
        · rw [← hcl]
          exact attemptSyncFrom_done_open r rest (i + 1) w1 hdone d hd1

theorem attemptSync_filter (r : ConferenceRoom) (w : World) :
    (attemptSync r w).room.conns.filter (fun c => !w.isClosed c) =
      r.conns.filter (fun c => !w.isClosed c) := by
  rcases attemptSyncFrom_conns r r.conns 0 w rfl (by simp) with ⟨h, _⟩ | ⟨_, j, c, hj, hc, _, h⟩
  · unfold attemptSync
    rw [h]
  · unfold attemptSync
    rw [h]
    exact filter_eraseIdx_of_false _ r.conns j c hj (by simp [hc])

/-! ## Lemmas: the loop over the attempts -/

theorem syncLoop_shape :
    ∀ (n : Nat) (r : ConferenceRoom) (w : World),
      ((syncLoop n r w).retryScheduled = true ∧ (syncLoop n r w).attempts = List.replicate n true) ∨
      ((syncLoop n r w).retryScheduled = false ∧
        ∃ k, k < n ∧ (syncLoop n r w).attempts = List.replicate k true ++ [false])
  | 0, _, _ => Or.inl ⟨rfl, rfl⟩
  | n + 1, r, w => by
    unfold syncLoop
    dsimp only
    split
    · rcases syncLoop_shape n (attemptSync r w).room (attemptSync r w).world with
        ⟨h1, h2⟩ | ⟨h1, k, hk, h2⟩
      · left
        refine ⟨h1, ?_⟩
        simp only [h2, List.replicate_succ]
      · right
        refine ⟨h1, k + 1, Nat.succ_lt_succ hk, ?_⟩
        simp only [h2, List.replicate_succ, List.cons_append]
    · right
      exact ⟨rfl, 0, Nat.succ_pos n, rfl⟩

theorem syncLoop_isClosed :
    ∀ (n : Nat) (r : ConferenceRoom) (w : World), (syncLoop n r w).world.isClosed = w.isClosed
  | 0, _, _ => rfl
  | n + 1, r, w => by
    unfold syncLoop
    dsimp only
    split
    · exact (syncLoop_isClosed n _ _).trans (attemptSyncFrom_isClosed r r.conns 0 w)
    · exact attemptSyncFrom_isClosed r r.conns 0 w

theorem syncLoop_conns :
    ∀ (n : Nat) (r : ConferenceRoom) (w : World), (syncLoop n r w).retryScheduled = false →
      (syncLoop n r w).room.conns = r.conns.filter (fun c => !w.isClosed c)
  | 0, _, _ => by
    intro h
    simp [syncLoop] at h
  | n + 1, r, w => by
    unfold syncLoop
    dsimp only
    split
    · intro h
      have hw : (attemptSync r w).world.isClosed = w.isClosed :=
        attemptSyncFrom_isClosed r r.conns 0 w
      rw [syncLoop_conns n _ _ h, hw]
      exact attemptSync_filter r w
    · next hdone =>
      intro _
      have hdone' : (attemptSync r w).tryAgain = false := by simpa using hdone
      have hroom : (attemptSync r w).room = r := attemptSyncFrom_room r r.conns 0 w hdone'
      rw [hroom]
      symm
      rw [List.filter_eq_self]
      intro c hc
      simp [attemptSyncFrom_done_open r r.conns 0 w hdone' c hc]

/-! ## C5, C6: the retry budget and the pruning of closed peers -/

/-- C5 (retry budget).  A call of `signalPeerConnections` runs `attemptSync` at most 25
times; it starts the deferred retry exactly when 25 attempts ran and each asked for a
restart; otherwise the room is not registered and nothing ran, or the attempts are some
`k < 25` restarts followed by one attempt that did not ask for a restart, which is the
last. -/
theorem signalPeerConnections_retry_budget (allRooms : webRTCServer) (r : ConferenceRoom)
    (w : World) :
    (signalPeerConnections allRooms r w).attempts.length ≤ 25 ∧
    ((signalPeerConnections allRooms r w).retryScheduled = true ↔
      (signalPeerConnections allRooms r w).attempts = List.replicate 25 true) ∧
    ((allRooms.has r.RoomID = false ∧ (signalPeerConnections allRooms r w).attempts = [] ∧
        (signalPeerConnections allRooms r w).retryScheduled = false) ∨
      (allRooms.has r.RoomID = true ∧ (signalPeerConnections allRooms r w).retryScheduled = true ∧
        (signalPeerConnections allRooms r w).attempts = List.replicate 25 true) ∨
      (allRooms.has r.RoomID = true ∧ (signalPeerConnections allRooms r w).retryScheduled = false ∧
        ∃ k, k < 25 ∧
          (signalPeerConnections allRooms r w).attempts = List.replicate k true ++ [false])) := by
  unfold signalPeerConnections
  by_cases hreg : allRooms.has r.RoomID = true
  · rw [if_pos hreg]
    dsimp only
    rcases syncLoop_shape 25 r w with ⟨h1, h2⟩ | ⟨h1, k, hk, h2⟩
    · refine ⟨?_, ?_, Or.inr (Or.inl ⟨hreg, h1, h2⟩)⟩
      · rw [h2]
        simp
      · rw [h1, h2]
        simp
    · refine ⟨?_, ?_, Or.inr (Or.inr ⟨hreg, h1, k, hk, h2⟩)⟩
      · rw [h2]
        simp
        omega
      · rw [h1, h2]
        constructor
        · intro h
          cases h
        · intro h
          have hmem : false ∈ List.replicate 25 true := by
            rw [← h]
            simp
          simp at hmem
  · rw [if_neg hreg]
    refine ⟨by simp, ?_, Or.inl ⟨by simpa using hreg, rfl, rfl⟩⟩
    constructor
    · intro h
      cases h
    · intro h
      have := congrArg List.length h
      simp at this

/-- C6 (prune closed peers), the states of the peers being those of the heap throughout.
(a) When some attempt of a call of `signalPeerConnections` ends without asking for a
restart, the resulting `conns` is the original `conns` without the sessions whose peer is
Closed, the others in their order.  (b) One attempt either leaves `conns` as it is, or it
asks for a restart and has removed exactly the first Closed session.  (c) An attempt that
does not ask for a restart has found no session Closed.  (d) When every library call
succeeds and some session is Closed, the attempt asks for a restart and has removed
exactly the first Closed session. -/
theorem signalPeerConnections_prunes_closed (allRooms : webRTCServer) (r : ConferenceRoom)
    (w : World) :
    (false ∈ (signalPeerConnections allRooms r w).attempts →
      (signalPeerConnections allRooms r w).room.conns =
        r.conns.filter (fun c => !w.isClosed c)) ∧
    ((attemptSync r w).room.conns = r.conns ∨
      ((attemptSync r w).tryAgain = true ∧
        ∃ j c, r.conns[j]? = some c ∧ w.isClosed c = true ∧
          (∀ d ∈ r.conns.take j, w.isClosed d = false) ∧
          (attemptSync r w).room.conns = r.conns.eraseIdx j)) ∧
    ((attemptSync r w).tryAgain = false → ∀ c ∈ r.conns, w.isClosed c = false) ∧
    (w.errs = [] → (∃ c ∈ r.conns, w.isClosed c = true) →
      (attemptSync r w).tryAgain = true ∧
        ∃ j c, r.conns[j]? = some c ∧ w.isClosed c = true ∧
          (∀ d ∈ r.conns.take j, w.isClosed d = false) ∧
          (attemptSync r w).room.conns = r.conns.eraseIdx j) := by
  have hstep := attemptSyncFrom_conns r r.conns 0 w rfl (by simp)
  have hopen := attemptSyncFrom_done_open r r.conns 0 w
  refine ⟨?_, ?_, hopen, ?_⟩
  · intro hconv
    unfold signalPeerConnections at hconv ⊢
    by_cases hreg : allRooms.has r.RoomID = true
    · rw [if_pos hreg] at hconv ⊢
      dsimp only at hconv ⊢
      rcases syncLoop_shape 25 r w with ⟨_, h2⟩ | ⟨h1, _⟩
      · rw [h2] at hconv
        simp at hconv
      · exact syncLoop_conns 25 r w h1
    · rw [if_neg hreg] at hconv
      simp at hconv
  · rcases hstep with ⟨h, _⟩ | h
    · exact Or.inl h
    · exact Or.inr h
  · intro he ⟨c, hc, hcl⟩
    rcases hstep with ⟨_, h⟩ | h
    · have := hopen (h he) c hc
      rw [hcl] at this
      cases this
    · exact h

/-- In the room with a closed peer, served by a world where every library call succeeds,
the call converges and the first attempt removes the closed peer at index 1. -/
theorem signalPeerConnections_prunes_closed_witness :
    false ∈ (signalPeerConnections oneRoomRegistry roomWithClosedPeer twoPeerWorld).attempts ∧
    (signalPeerConnections oneRoomRegistry roomWithClosedPeer twoPeerWorld).room.conns =
      roomWithClosedPeer.conns.filter (fun c => !twoPeerWorld.isClosed c) ∧
    twoPeerWorld.errs = [] ∧
    (∃ c ∈ roomWithClosedPeer.conns, twoPeerWorld.isClosed c = true) ∧
    (attemptSync roomWithClosedPeer twoPeerWorld).tryAgain = true :=
  ⟨by decide,
    (signalPeerConnections_prunes_closed oneRoomRegistry roomWithClosedPeer twoPeerWorld).1
      (by decide),
    rfl, by decide,
    ((signalPeerConnections_prunes_closed oneRoomRegistry roomWithClosedPeer twoPeerWorld).2.2.2
      rfl (by decide)).1⟩

/-! ## C3, C4: the lobby dispatcher removes subscribers while it ranges over them -/

/-- C3 at a failing input: two subscribers, the snapshot encodes, and both writes fail.
After the first removal the slice has length 1, and the removal at index 1 slices
`s.Clients[2:]`, which panics. -/
theorem run_panics_when_two_writes_fail :
    (run "snapshot" twoSubscribers { twoPeerWorld with errs := [false, true, true] }).status =
      RunStatus.panicked "slice bounds out of range" ∧
    (run "snapshot" twoSubscribers { twoPeerWorld with errs := [false, true, true] }).writes =
      [1, 2] := by
  decide

/-- C4 at a failing input: three subscribers, and only the write to the first fails.
The removal moves subscriber 2 to index 0, where the range has already been, and the
copy of subscriber 3 left at index 2 is written a second time. -/
theorem run_skips_and_repeats_after_removal :
    (run "snapshot" threeSubscribers { twoPeerWorld with errs := [false, true] }).writes =
      [1, 3, 3] ∧
    (run "snapshot" threeSubscribers { twoPeerWorld with errs := [false, true] }).status =
      RunStatus.running ∧
    (run "snapshot" threeSubscribers
      { twoPeerWorld with errs := [false, true] }).server.Clients.toList = [2, 3] := by
  decide

/-! ## C7: the collector of empty rooms -/

/-- C7 at a failing input: a room is created and stays empty over two wake-ups of its
collector.  The first wake-up unregisters it and publishes the update; the second finds
nothing to unregister and publishes the same update again. -/
theorem connectionsNumberCheck_publishes_deleted_twice :
    (connectionsNumberCheck
      (newConferenceRoom { text := "6ba7b810-9dad-11d1-80b4-00c04fd430c8" } 0 freshGlobals).1 2
      (newConferenceRoom { text := "6ba7b810-9dad-11d1-80b4-00c04fd430c8" } 0
        freshGlobals).2.globals).globals.signalingServer.UpdateSignal.buf =
      ["room ID 6ba7b810-9dad-11d1-80b4-00c04fd430c8 created.",
       "room ID 6ba7b810-9dad-11d1-80b4-00c04fd430c8 deleted",
       "room ID 6ba7b810-9dad-11d1-80b4-00c04fd430c8 deleted"] ∧
    (connectionsNumberCheck
      (newConferenceRoom { text := "6ba7b810-9dad-11d1-80b4-00c04fd430c8" } 0 freshGlobals).1 1
      (newConferenceRoom { text := "6ba7b810-9dad-11d1-80b4-00c04fd430c8" } 0
        freshGlobals).2.globals).globals.allRooms.Rooms = [] := by
  decide

/-! ## C8: frames that do not decode, and events the loop does not know -/

/-- C8 as stated fails: a frame that decodes with the event `ping` does not end the
session; the loop is back at its `select`, and it answers the next tick with a
keepalive. -/
theorem mainLoop_unknown_event_keeps_waiting :
    (mainLoop { peerConnection := 1, websocket := 11 }
      [LoopEvent.frame (Frame.object (some "ping") (some ""))]
      (some { Event := "", Data := "" }) twoPeerWorld).status = LoopStatus.waiting ∧
    (mainLoop { peerConnection := 1, websocket := 11 }
      [LoopEvent.frame (Frame.object (some "ping") (some "")), LoopEvent.tick]
      (some { Event := "", Data := "" }) twoPeerWorld).world.sent =
      [(11, { Event := "keepalive", Data := "" })] := by
  decide

/-- C8 amended.  In the main loop of `JoinMeeting`, a frame that fails to decode makes the
handler return, whatever events follow; a frame that decodes to a message whose event is
none of `candidate`, `answer`, `addTrack` changes nothing but the decoded message, and the
loop goes on with the events that follow. -/
theorem mainLoop_malformed_returns_unknown_continues (c : clientConnectionState) (f : Frame)
    (rest : List LoopEvent) (message : Option websocketwebRTCMessage) (w : World) :
    (∀ err, jsonUnmarshal f message = Except.error err →
      (mainLoop c (LoopEvent.frame f :: rest) message w).status = LoopStatus.returned ∧
      (mainLoop c (LoopEvent.frame f :: rest) message w).world.sent = w.sent) ∧
    (∀ m, jsonUnmarshal f message = Except.ok (some m) →
      m.Event ≠ "candidate" → m.Event ≠ "answer" → m.Event ≠ "addTrack" →
      mainLoop c (LoopEvent.frame f :: rest) message w = mainLoop c rest (some m) w) := by
  constructor
  · intro err h
    simp [mainLoop, onFrame, h]
  · intro m h h1 h2 h3
    simp only [mainLoop, onFrame, h, if_neg h1, if_neg h2, if_neg h3]

/-- Both cases of the amended C8 occur: bytes that are no JSON, and an object with the
event `ping`. -/
theorem mainLoop_malformed_returns_unknown_continues_witness :
    (mainLoop { peerConnection := 1, websocket := 11 }
      (LoopEvent.frame Frame.invalid :: [LoopEvent.tick]) none twoPeerWorld).status =
      LoopStatus.returned ∧
    mainLoop { peerConnection := 1, websocket := 11 }
      (LoopEvent.frame (Frame.object (some "ping") none) :: [LoopEvent.tick]) none twoPeerWorld =
    mainLoop { peerConnection := 1, websocket := 11 } [LoopEvent.tick]
      (some { Event := "ping", Data := "" }) twoPeerWorld :=
  ⟨((mainLoop_malformed_returns_unknown_continues { peerConnection := 1, websocket := 11 }
      Frame.invalid [LoopEvent.tick] none twoPeerWorld).1 "invalid character" rfl).1,
    (mainLoop_malformed_returns_unknown_continues { peerConnection := 1, websocket := 11 }
      (Frame.object (some "ping") none) [LoopEvent.tick] none twoPeerWorld).2
      { Event := "ping", Data := "" } rfl (by decide) (by decide) (by decide)⟩

/-! ## C9: addTrack -/

theorem TrackMap.get_set_self (m : TrackMap) (k : String) (v : TrackLocalStaticRTP) :
    (m.set k v).get k = some v := by
  simp [TrackMap.get, TrackMap.set]

theorem TrackMap.get_delete_ne (k other : String) (hne : other ≠ k) :
    ∀ m : TrackMap, (m.delete k).get other = m.get other
  | [] => rfl
  | (a, v) :: m => by
    have ih := TrackMap.get_delete_ne k other hne m
    unfold TrackMap.get TrackMap.delete at ih ⊢
    by_cases ha : a = k
    · subst ha
      have hne' : ¬ a = other := fun h => hne h.symm
      simp [List.filter_cons, List.find?_cons, hne']
      simpa using ih
    · by_cases hb : a = other
      · subst hb
        simp [List.filter_cons, List.find?_cons, ha]
      · simp [List.filter_cons, List.find?_cons, ha, hb]
        simpa using ih

theorem TrackMap.get_set_ne (m : TrackMap) (k other : String) (v : TrackLocalStaticRTP)
    (hne : other ≠ k) : (m.set k v).get other = m.get other := by
  have h := TrackMap.get_delete_ne k other hne m
  unfold TrackMap.set
  unfold TrackMap.get at h ⊢
  have hne' : ¬ k = other := fun h => hne h.symm
  simp [List.find?_cons, hne']
  simpa using h

theorem attemptSyncFrom_clientTracks (r : ConferenceRoom) :
    ∀ (todo : List clientConnectionState) (i : Nat) (w : World),
      (attemptSyncFrom r i todo w).room.clientTracks = r.clientTracks
  | [], _, _ => rfl
  | c :: rest, i, w => by
    unfold attemptSyncFrom
    split
    · rfl
    · split
      · rfl
      · exact attemptSyncFrom_clientTracks r rest (i + 1) _

theorem syncLoop_clientTracks :
    ∀ (n : Nat) (r : ConferenceRoom) (w : World),
      (syncLoop n r w).room.clientTracks = r.clientTracks
  | 0, _, _ => rfl
  | n + 1, r, w => by
    unfold syncLoop
    dsimp only
    split
    · exact (syncLoop_clientTracks n _ _).trans (attemptSyncFrom_clientTracks r r.conns 0 w)
    · exact attemptSyncFrom_clientTracks r r.conns 0 w

theorem signalPeerConnections_clientTracks (allRooms : webRTCServer) (r : ConferenceRoom)
    (w : World) : (signalPeerConnections allRooms r w).room.clientTracks = r.clientTracks := by
  unfold signalPeerConnections
  split
  · exact syncLoop_clientTracks 25 r w
  · rfl

/-- The map stays keyed by track id when `addTrack` stores a track that carries the id it
was made with. -/
theorem addTrack_keyedByID
    (mk : String → String → String → Except String TrackLocalStaticRTP)
    (hmk : ∀ codec id streamID t, mk codec id streamID = Except.ok t → t.id = id)
    (allRooms : webRTCServer) (r : ConferenceRoom) (t : TrackRemote) (w : World)
    (hkeys : r.clientTracks.keyedByID) :
    (addTrack mk allRooms r t w).room.clientTracks.keyedByID := by
  unfold addTrack
  split
  · split
    · rw [signalPeerConnections_clientTracks]
      exact hkeys
    · next trackLocal h =>
      rw [signalPeerConnections_clientTracks]
      intro kv hkv
      simp only [TrackMap.set, TrackMap.delete, List.mem_cons, List.mem_filter] at hkv
      rcases hkv with hkv | hkv
      · subst hkv
        exact hmk _ _ _ _ h
      · exact hkeys kv hkv.1
  · exact hkeys

/-- The map stays keyed by track id when `removeTrack` deletes an entry. -/
theorem removeTrack_keyedByID (allRooms : webRTCServer) (r : ConferenceRoom)
    (t : TrackLocalStaticRTP) (w : World) (hkeys : r.clientTracks.keyedByID) :
    (removeTrack allRooms r t w).1.clientTracks.keyedByID := by
  unfold removeTrack
  split
  · dsimp only
    rw [signalPeerConnections_clientTracks]
    intro kv hkv
    simp only [TrackMap.delete, List.mem_filter] at hkv
    exact hkeys kv hkv.1
  · exact hkeys

/-- C9 as stated fails.  For a room that is no longer registered `addTrack` returns nil
and stores nothing; and when the constructor of the forwarding track returns an error
`addTrack` panics, again with nothing stored. -/
theorem addTrack_returns_nil_when_unregistered :
    (addTrack staticTrack { Rooms := [] } twoPeerRoom newcomerTrack twoPeerWorld).track = none ∧
    (addTrack staticTrack { Rooms := [] } twoPeerRoom newcomerTrack
      twoPeerWorld).room.clientTracks.get newcomerTrack.id = none ∧
    (addTrack brokenTrack oneRoomRegistry twoPeerRoom newcomerTrack twoPeerWorld).panicked =
      some "codec mismatch" ∧
    (addTrack brokenTrack oneRoomRegistry twoPeerRoom newcomerTrack
      twoPeerWorld).room.clientTracks.get newcomerTrack.id = none := by
  decide

/-- C9 amended.  For a room that is registered in `allRooms` and a remote track for which
the media stack builds the forwarding track, `addTrack` returns that track without
panicking, and afterwards `clientTracks` maps the id of the remote track to exactly the
returned track, while the entry under every other id is as before. -/
theorem addTrack_registers_returned_track
    (mk : String → String → String → Except String TrackLocalStaticRTP)
    (allRooms : webRTCServer) (r : ConferenceRoom) (t : TrackRemote) (w : World)
    (trackLocal : TrackLocalStaticRTP)
    (hreg : allRooms.has r.RoomID = true)
    (hmk : mk t.codec t.id t.streamID = Except.ok trackLocal) :
    (addTrack mk allRooms r t w).track = some trackLocal ∧
    (addTrack mk allRooms r t w).panicked = none ∧
    (addTrack mk allRooms r t w).room.clientTracks.get t.id = some trackLocal ∧
    (∀ k, k ≠ t.id →
      (addTrack mk allRooms r t w).room.clientTracks.get k = r.clientTracks.get k) := by
  unfold addTrack
  rw [if_pos hreg]
  simp only [hmk]
  refine ⟨trivial, trivial, ?_, ?_⟩
  · rw [signalPeerConnections_clientTracks]
    exact TrackMap.get_set_self _ _ _
  · intro k hk
    rw [signalPeerConnections_clientTracks]
    exact TrackMap.get_set_ne _ _ _ _ hk

/-- The amended C9 at the room of two peers, registered, to which a third track comes. -/
theorem addTrack_registers_returned_track_witness :
    oneRoomRegistry.has twoPeerRoom.RoomID = true ∧
    staticTrack newcomerTrack.codec newcomerTrack.id newcomerTrack.streamID =
      Except.ok { codec := "video/VP8", id := "c", streamID := "s3" } ∧
    (addTrack staticTrack oneRoomRegistry twoPeerRoom newcomerTrack twoPeerWorld).track =
      some { codec := "video/VP8", id := "c", streamID := "s3" } ∧
    (addTrack staticTrack oneRoomRegistry twoPeerRoom newcomerTrack
      twoPeerWorld).room.clientTracks.get "c" =
      some { codec := "video/VP8", id := "c", streamID := "s3" } :=
  ⟨by decide, rfl,
    (addTrack_registers_returned_track staticTrack oneRoomRegistry twoPeerRoom newcomerTrack
      twoPeerWorld { codec := "video/VP8", id := "c", streamID := "s3" } (by decide) rfl).1,
    (addTrack_registers_returned_track staticTrack oneRoomRegistry twoPeerRoom newcomerTrack
      twoPeerWorld { codec := "video/VP8", id := "c", streamID := "s3" } (by decide) rfl).2.2.1⟩

/-! ## C10: a join for a room that does not exist -/

theorem webRTCServer.get_eq_none_of_has_false (s : webRTCServer) (id : UUID)
    (h : s.has id = false) : s.get id = none := by
  unfold webRTCServer.has at h
  unfold webRTCServer.get
  rw [List.any_eq_false] at h
  rw [Option.map_eq_none', List.find?_eq_none]
  exact fun x hx => h x hx

/-- C10 (unknown room).  When the room id of a join request does not parse as a UUID, or
parses to an id that is not a key of the registry, `JoinMeeting` leaves the registry, and
with it the `conns` of every room, as it was; it appends no session, does not call
`signalPeerConnections`, never enters the main loop, and has answered with an HTTP
error. -/
theorem JoinMeeting_unknown_room (parse : String → Option UUID) (allRooms : webRTCServer)
    (req : JoinRequest) (events : List LoopEvent) (w : World)
    (h : parse req.roomid = none ∨
      ∃ id, parse req.roomid = some id ∧ allRooms.has id = false) :
    (JoinMeeting parse allRooms req events w).allRooms = allRooms ∧
    (JoinMeeting parse allRooms req events w).session = none ∧
    (JoinMeeting parse allRooms req events w).signalled = false ∧
    (JoinMeeting parse allRooms req events w).loop = none ∧
    ((JoinMeeting parse allRooms req events w).httpError = some 400 ∨
      (JoinMeeting parse allRooms req events w).httpError = some 500) := by
  unfold JoinMeeting
  split
  · exact ⟨rfl, rfl, rfl, rfl, Or.inr rfl⟩
  · split
    · exact ⟨rfl, rfl, rfl, rfl, Or.inr rfl⟩
    · dsimp only
      split
      · exact ⟨rfl, rfl, rfl, rfl, Or.inr rfl⟩
      · split
        · exact ⟨rfl, rfl, rfl, rfl, Or.inl rfl⟩
        · next roomID hparse =>
          split
          · exact ⟨rfl, rfl, rfl, rfl, Or.inl rfl⟩
          · next room hget =>
            exfalso
            rcases h with h | ⟨id, h1, h2⟩
            · rw [hparse] at h
              cases h
            · rw [hparse] at h1
              cases h1
              rw [webRTCServer.get_eq_none_of_has_false allRooms roomID h2] at hget
              cases hget

/-- Two join requests for the registry that holds one room: one whose room id is no
UUID, one whose room id parses to an id that is not registered. -/
theorem JoinMeeting_unknown_room_witness :
    parseOnly twoPeerRoom.RoomID "lobby" = none ∧
    (JoinMeeting (parseOnly twoPeerRoom.RoomID) oneRoomRegistry
      { roomid := "lobby", websocket := 14, peerConnection := 4 }
      [LoopEvent.tick] twoPeerWorld).allRooms = oneRoomRegistry ∧
    (∃ id, parseOnly { text := "00000000-0000-0000-0000-000000000000" }
        "00000000-0000-0000-0000-000000000000" = some id ∧ oneRoomRegistry.has id = false) ∧
    (JoinMeeting (parseOnly { text := "00000000-0000-0000-0000-000000000000" }) oneRoomRegistry
      { roomid := "00000000-0000-0000-0000-000000000000", websocket := 14, peerConnection := 4 }
      [LoopEvent.tick] twoPeerWorld).loop = none :=
  ⟨by decide,
    (JoinMeeting_unknown_room (parseOnly twoPeerRoom.RoomID) oneRoomRegistry
      { roomid := "lobby", websocket := 14, peerConnection := 4 }
      [LoopEvent.tick] twoPeerWorld (Or.inl (by decide))).1,
    ⟨{ text := "00000000-0000-0000-0000-000000000000" }, by decide, by decide⟩,
    (JoinMeeting_unknown_room (parseOnly { text := "00000000-0000-0000-0000-000000000000" })
      oneRoomRegistry
      { roomid := "00000000-0000-0000-0000-000000000000", websocket := 14, peerConnection := 4 }
      [LoopEvent.tick] twoPeerWorld
      (Or.inr ⟨{ text := "00000000-0000-0000-0000-000000000000" }, by decide, by decide⟩)).2.2.2.1⟩

/-! ## C11: the offers of one attempt -/

theorem World.fail_sent_of {w w1 : World} {b : Bool} (h : w.fail = (b, w1)) :
    w1.sent = w.sent := by
  unfold World.fail at h
  split at h
  · cases h
    rfl
  · cases h
    rfl

theorem removeStaleSenders_sent (m : TrackMap) :
    ∀ (l : List RTPSender) (w : World), (removeStaleSenders m l w).2.2.sent = w.sent
  | [], _ => rfl
  | s :: rest, w => by
    unfold removeStaleSenders
    split
    · exact removeStaleSenders_sent m rest w
    · split
      · exact removeStaleSenders_sent m rest w
      · dsimp only [signalingStateCheck]
        split
        · next h => exact World.fail_sent_of h
        · next h =>
          rw [removeStaleSenders_sent m rest _]
          exact World.fail_sent_of h

theorem addMissingTracks_sent (e : List String) :
    ∀ (m : TrackMap) (pc : PeerConnection) (w : World),
      (addMissingTracks e m pc w).2.2.sent = w.sent
  | [], _, _ => rfl
  | (k, t) :: rest, pc, w => by
    unfold addMissingTracks
    split
    · exact addMissingTracks_sent e rest pc w
    · split
      · next h => exact World.fail_sent_of h
      · next h =>
        rw [addMissingTracks_sent e rest _ _]
        exact World.fail_sent_of h

theorem sendOffer_sent (c : clientConnectionState) (w : World)
    (hok : (sendOffer c w).1 = false) :
    ∃ data, (sendOffer c w).2.sent = w.sent ++ [(c.websocket, { Event := "offer", Data := data })] := by
  unfold sendOffer at hok ⊢
  split
  · next h =>
    rw [h] at hok
    simp at hok
  · next h =>
    rw [h] at hok
    dsimp only at hok ⊢
    split
    · next h1 =>
      rw [h1] at hok
      simp at hok
    · next h1 =>
      rw [h1] at hok
      dsimp only at hok ⊢
      split
      · next h2 =>
        rw [h2] at hok
        simp at hok
      · next h2 =>
        rw [h2] at hok
        dsimp only at hok ⊢
        split
        · next h3 =>
          rw [h3] at hok
          simp at hok
        · next w4 h3 =>
          refine ⟨offerString (w4.pcs c.peerConnection), ?_⟩
          dsimp only
          rw [World.fail_sent_of h3, World.fail_sent_of h2, World.fail_sent_of h1,
            World.fail_sent_of h]

/-- A session that is synchronised to the end is sent one frame, an `offer`. -/
theorem syncPeer_sent (m : TrackMap) (c : clientConnectionState) (w : World)
    (hok : (syncPeer m c w).1 = false) :
    ∃ data, (syncPeer m c w).2.sent =
      w.sent ++ [(c.websocket, { Event := "offer", Data := data })] := by
  unfold syncPeer at hok ⊢
  dsimp only at hok ⊢
  split
  · next hrem =>
    rw [if_pos hrem] at hok
    simp at hok
  · next hrem =>
    rw [if_neg hrem] at hok
    split
    · next hadd =>
      rw [if_pos hadd] at hok
      simp at hok
    · next hadd =>
      rw [if_neg hadd] at hok
      obtain ⟨data, hd⟩ := sendOffer_sent c _ hok
      refine ⟨data, ?_⟩
      rw [hd]
      simp only [World.setPC, addMissingTracks_sent, removeStaleSenders_sent]

theorem attemptSyncFrom_sent (r : ConferenceRoom) :
    ∀ (todo : List clientConnectionState) (i : Nat) (w : World),
      (attemptSyncFrom r i todo w).tryAgain = false →
      ∃ frames : List (Nat × websocketwebRTCMessage),
        (attemptSyncFrom r i todo w).world.sent = w.sent ++ frames ∧
        frames.map (fun f => (f.1, f.2.Event)) = todo.map (fun c => (c.websocket, "offer"))
  | [], _, w => fun _ => ⟨[], by simp [attemptSyncFrom], rfl⟩
  | c :: rest, i, w => by
    unfold attemptSyncFrom
    split
    · intro h
      simp at h
    · have hsent := syncPeer_sent r.clientTracks c w
      split
      · intro h
        simp at h
      · next w1 h =>
        rw [h] at hsent
        intro hdone
        obtain ⟨data, hd⟩ := hsent rfl
        obtain ⟨frames, hf1, hf2⟩ := attemptSyncFrom_sent r rest (i + 1) w1 hdone
        refine ⟨(c.websocket, { Event := "offer", Data := data }) :: frames, ?_, ?_⟩
        · rw [hf1]
          dsimp only at hd
          rw [hd, List.append_assoc]
          rfl
        · simp only [List.map_cons, hf2]

/-- C11 (monotone renegotiation).  When a run of `attemptSync` ends without asking for a
restart, the frames it wrote are, in the order of `conns`, one `offer` for each session
of `conns` and nothing else: every frame went to the websocket of a session of `conns`,
and when the sessions of `conns` have distinct websockets each of them was written
exactly once. -/
theorem attemptSync_one_offer_each (r : ConferenceRoom) (w : World)
    (hdone : (attemptSync r w).tryAgain = false) :
    ∃ frames : List (Nat × websocketwebRTCMessage),
      (attemptSync r w).world.sent = w.sent ++ frames ∧
      frames.map (fun f => (f.1, f.2.Event)) =
        (attemptSync r w).room.conns.map (fun c => (c.websocket, "offer")) ∧
      (∀ f ∈ frames, f.2.Event = "offer" ∧
        ∃ c ∈ (attemptSync r w).room.conns, c.websocket = f.1) ∧
      (((attemptSync r w).room.conns.map (fun c => c.websocket)).Nodup →
        ∀ c ∈ (attemptSync r w).room.conns,
          (frames.map (fun f => f.1)).count c.websocket = 1) := by
  have hroom : (attemptSync r w).room = r := attemptSyncFrom_room r r.conns 0 w hdone
  obtain ⟨frames, hf1, hf2⟩ := attemptSyncFrom_sent r r.conns 0 w hdone
  rw [hroom]
  have hfst : frames.map (fun f => f.1) = r.conns.map (fun c => c.websocket) := by
    have := congrArg (List.map (fun x : Nat × String => x.1)) hf2
    simpa [List.map_map, Function.comp_def] using this
  have hev : frames.map (fun f => f.2.Event) = r.conns.map (fun _ => "offer") := by
    have := congrArg (List.map (fun x : Nat × String => x.2)) hf2
    simpa [List.map_map, Function.comp_def] using this
  refine ⟨frames, hf1, hf2, ?_, ?_⟩
  · intro f hf
    constructor
    · have h1 : f.2.Event ∈ frames.map (fun f => f.2.Event) := List.mem_map_of_mem _ hf
      rw [hev, List.mem_map] at h1
      obtain ⟨_, _, h2⟩ := h1
      exact h2.symm
    · have h1 : f.1 ∈ frames.map (fun f => f.1) := List.mem_map_of_mem _ hf
      rw [hfst, List.mem_map] at h1
      exact h1
  · intro hnd c hc
    rw [hfst]
    exact List.count_eq_one_of_mem hnd (List.mem_map_of_mem _ hc)

/-- In the room of two peers the attempt ends without restart, the websockets 11 and 12
are distinct, and the frames written are one offer to each. -/
theorem attemptSync_one_offer_each_witness :
    (attemptSync twoPeerRoom twoPeerWorld).tryAgain = false ∧
    ((attemptSync twoPeerRoom twoPeerWorld).room.conns.map (fun c => c.websocket)).Nodup ∧
    (attemptSync twoPeerRoom twoPeerWorld).world.sent.map (fun f => (f.1, f.2.Event)) =
      [(11, "offer"), (12, "offer")] ∧
    ∃ frames : List (Nat × websocketwebRTCMessage),
      (attemptSync twoPeerRoom twoPeerWorld).world.sent = twoPeerWorld.sent ++ frames ∧
      frames.map (fun f => (f.1, f.2.Event)) =
        (attemptSync twoPeerRoom twoPeerWorld).room.conns.map (fun c => (c.websocket, "offer")) ∧
      (∀ f ∈ frames, f.2.Event = "offer" ∧
        ∃ c ∈ (attemptSync twoPeerRoom twoPeerWorld).room.conns, c.websocket = f.1) ∧
      (((attemptSync twoPeerRoom twoPeerWorld).room.conns.map (fun c => c.websocket)).Nodup →
        ∀ c ∈ (attemptSync twoPeerRoom twoPeerWorld).room.conns,
          (frames.map (fun f => f.1)).count c.websocket = 1) :=
  ⟨by decide, by decide, by decide,
    attemptSync_one_offer_each twoPeerRoom twoPeerWorld (by decide)⟩

/-! ## C12: publishing on `UpdateSignal` -/

theorem publish_of_room (g : Globals) (signalStr : String)
    (h : g.signalingServer.UpdateSignal.buf.length < g.signalingServer.UpdateSignal.cap) :
    (publish g signalStr).blocked = false ∧
    (publish g signalStr).globals.signalingServer.UpdateSignal.buf =
      g.signalingServer.UpdateSignal.buf ++ [signalStr] ∧
    (publish g signalStr).globals.signalingServer.UpdateSignal.cap =
      g.signalingServer.UpdateSignal.cap ∧
    (publish g signalStr).globals.allRooms = g.allRooms := by
  unfold publish Chan.send
  rw [if_pos h]
  exact ⟨rfl, rfl, rfl, rfl⟩

theorem publish_of_full (g : Globals) (signalStr : String)
    (h : g.signalingServer.UpdateSignal.cap ≤ g.signalingServer.UpdateSignal.buf.length) :
    (publish g signalStr).blocked = true ∧ (publish g signalStr).globals = g := by
  unfold publish Chan.send
  rw [if_neg (Nat.not_lt.2 h)]
  exact ⟨rfl, rfl⟩

/-- C12 as stated fails.  With ten updates queued in `UpdateSignal`, the send in
`newConferenceRoom` does not complete, and neither does the send in the collector of an
empty room: the publisher waits, the ten queued updates are all still there, the oldest
at the head, and the new update is not enqueued. -/
theorem publish_blocks_on_full_channel :
    (newConferenceRoom { text := "6ba7b810-9dad-11d1-80b4-00c04fd430c8" } 0 fullGlobals).2.blocked =
      true ∧
    (newConferenceRoom { text := "6ba7b810-9dad-11d1-80b4-00c04fd430c8" } 0
      fullGlobals).2.globals.signalingServer.UpdateSignal.buf =
      ["u0", "u1", "u2", "u3", "u4", "u5", "u6", "u7", "u8", "u9"] ∧
    (gcWake { twoPeerRoom with conns := [] } fullGlobals).blocked = true ∧
    (gcWake { twoPeerRoom with conns := [] } fullGlobals).globals.signalingServer.UpdateSignal.buf =
      ["u0", "u1", "u2", "u3", "u4", "u5", "u6", "u7", "u8", "u9"] := by
  decide

/-- C12 amended.  Publishing the room-created update (`newConferenceRoom`) or the
room-deleted update (`gcWake` on an empty room) on a channel that holds fewer updates
than its capacity completes without blocking and puts the update at the end of the
queue, behind those already there; on a full channel the publisher blocks and the queue
is left as it is, nothing dropped and nothing added.  In both cases a queue within the
capacity stays within the capacity. -/
theorem publish_enqueues_or_blocks (newRoomID : UUID) (now : Nat) (r : ConferenceRoom)
    (g : Globals) (hempty : r.conns = []) :
    (g.signalingServer.UpdateSignal.buf.length < g.signalingServer.UpdateSignal.cap →
      (newConferenceRoom newRoomID now g).2.blocked = false ∧
      (newConferenceRoom newRoomID now g).2.globals.signalingServer.UpdateSignal.buf =
        g.signalingServer.UpdateSignal.buf ++ ["room ID " ++ newRoomID.text ++ " created."] ∧
      (gcWake r g).blocked = false ∧
      (gcWake r g).globals.signalingServer.UpdateSignal.buf =
        g.signalingServer.UpdateSignal.buf ++ ["room ID " ++ r.RoomID.text ++ " deleted"]) ∧
    (g.signalingServer.UpdateSignal.cap ≤ g.signalingServer.UpdateSignal.buf.length →
      (newConferenceRoom newRoomID now g).2.blocked = true ∧
      (newConferenceRoom newRoomID now g).2.globals.signalingServer = g.signalingServer ∧
      (gcWake r g).blocked = true ∧
      (gcWake r g).globals.signalingServer = g.signalingServer) ∧
    (g.signalingServer.UpdateSignal.buf.length ≤ g.signalingServer.UpdateSignal.cap →
      (newConferenceRoom newRoomID now g).2.globals.signalingServer.UpdateSignal.buf.length ≤
        (newConferenceRoom newRoomID now g).2.globals.signalingServer.UpdateSignal.cap ∧
      (gcWake r g).globals.signalingServer.UpdateSignal.buf.length ≤
        (gcWake r g).globals.signalingServer.UpdateSignal.cap) := by
  have hlen : r.conns.length = 0 := by rw [hempty]; rfl
  obtain ⟨g2, hs2, hgc⟩ : ∃ g2 : Globals, g2.signalingServer = g.signalingServer ∧
      gcWake r g = publish g2 ("room ID " ++ r.RoomID.text ++ " deleted") := by
    refine ⟨{ g with allRooms := g.allRooms.delete r.RoomID }, rfl, ?_⟩
    unfold gcWake
    rw [if_pos hlen]
  obtain ⟨g1, hs1, hnew⟩ : ∃ g1 : Globals, g1.signalingServer = g.signalingServer ∧
      (newConferenceRoom newRoomID now g).2 =
        publish g1 ("room ID " ++ newRoomID.text ++ " created.") :=
    ⟨{ g with allRooms := g.allRooms.set newRoomID ⟨newRoomID, [], [], now⟩ }, rfl, rfl⟩
  rw [hgc, hnew]
  have hroom1 := publish_of_room g1 ("room ID " ++ newRoomID.text ++ " created.")
  have hroom2 := publish_of_room g2 ("room ID " ++ r.RoomID.text ++ " deleted")
  have hfull1 := publish_of_full g1 ("room ID " ++ newRoomID.text ++ " created.")
  have hfull2 := publish_of_full g2 ("room ID " ++ r.RoomID.text ++ " deleted")
  rw [hs1] at hroom1 hfull1
  rw [hs2] at hroom2 hfull2
  refine ⟨?_, ?_, ?_⟩
  · intro h
    exact ⟨(hroom1 h).1, (hroom1 h).2.1, (hroom2 h).1, (hroom2 h).2.1⟩
  · intro h
    refine ⟨(hfull1 h).1, ?_, (hfull2 h).1, ?_⟩
    · rw [(hfull1 h).2, hs1]
    · rw [(hfull2 h).2, hs2]
  · intro h
    rcases Nat.lt_or_ge g.signalingServer.UpdateSignal.buf.length
      g.signalingServer.UpdateSignal.cap with hlt | hge
    · rw [(hroom1 hlt).2.1, (hroom1 hlt).2.2.1, (hroom2 hlt).2.1, (hroom2 hlt).2.2.1]
      simp only [List.length_append, List.length_singleton]
      exact ⟨hlt, hlt⟩
    · rw [(hfull1 hge).2, (hfull2 hge).2, hs1, hs2]
      exact ⟨h, h⟩

/-- The amended C12 at the channel of a fresh process, which is empty and has capacity
10, and at the channel that holds ten updates. -/
theorem publish_enqueues_or_blocks_witness :
    ({ twoPeerRoom with conns := [] } : ConferenceRoom).conns = [] ∧
    freshGlobals.signalingServer.UpdateSignal.buf.length <
      freshGlobals.signalingServer.UpdateSignal.cap ∧
    (newConferenceRoom { text := "6ba7b810-9dad-11d1-80b4-00c04fd430c8" } 0
      freshGlobals).2.blocked = false ∧
    fullGlobals.signalingServer.UpdateSignal.cap ≤
      fullGlobals.signalingServer.UpdateSignal.buf.length ∧
    (gcWake { twoPeerRoom with conns := [] } fullGlobals).blocked = true :=
  ⟨rfl, by decide,
    ((publish_enqueues_or_blocks { text := "6ba7b810-9dad-11d1-80b4-00c04fd430c8" } 0
      { twoPeerRoom with conns := [] } freshGlobals rfl).1 (by decide)).1,
    by decide,
    ((publish_enqueues_or_blocks { text := "6ba7b810-9dad-11d1-80b4-00c04fd430c8" } 0
      { twoPeerRoom with conns := [] } fullGlobals rfl).2.1 (by decide)).2.2.1⟩

/-! ## C13: how many attempts the pruning takes -/

theorem attemptSyncFrom_errs_nil (r : ConferenceRoom) :
    ∀ (todo : List clientConnectionState) (i : Nat) (w : World), w.errs = [] →
      (attemptSyncFrom r i todo w).world.errs = []
  | [], _, _ => fun h => h
  | c :: rest, i, w => by
    intro h
    unfold attemptSyncFrom
    split
    · exact h
    · have hnil := syncPeer_nil r.clientTracks c w h
      split
      · next w1 h1 =>
        rw [h1] at hnil
        exact hnil.2
      · next w1 h1 =>
        rw [h1] at hnil
        exact attemptSyncFrom_errs_nil r rest (i + 1) w1 hnil.2

theorem countP_eraseIdx_of_true {α : Type} (p : α → Bool) :
    ∀ (l : List α) (j : Nat) (c : α), l[j]? = some c → p c = true →
      (l.eraseIdx j).countP p + 1 = l.countP p
  | [], _, _, h, _ => by simp at h
  | a :: l, 0, c, h, hp => by
    simp at h
    subst h
    simp [hp]
  | a :: l, j + 1, c, h, hp => by
    simp at h
    have ih := countP_eraseIdx_of_true p l j c h hp
    simp only [List.eraseIdx_cons_succ, List.countP_cons]
    omega

/-- An attempt in which every library call succeeds: with no session closed it ends
without restart and leaves the room as it is; otherwise it asks for a restart and leaves
one closed session less.  The calls to come still succeed. -/
theorem attemptSync_nil_step (r : ConferenceRoom) (w : World) (h : w.errs = []) :
    (attemptSync r w).world.errs = [] ∧
    (((attemptSync r w).tryAgain = false ∧ (attemptSync r w).room = r ∧
        r.conns.countP w.isClosed = 0) ∨
      ((attemptSync r w).tryAgain = true ∧
        (attemptSync r w).room.conns.countP w.isClosed + 1 = r.conns.countP w.isClosed)) := by
  refine ⟨attemptSyncFrom_errs_nil r r.conns 0 w h, ?_⟩
  rcases attemptSyncFrom_conns r r.conns 0 w rfl (by simp) with ⟨_, h2⟩ | ⟨h1, j, c, hj, hc, _, h3⟩
  · left
    have hdone : (attemptSync r w).tryAgain = false := h2 h
    refine ⟨hdone, attemptSyncFrom_room r r.conns 0 w hdone, ?_⟩
    rw [List.countP_eq_zero]
    intro d hd
    rw [attemptSyncFrom_done_open r r.conns 0 w hdone d hd]
    simp
  · right
    refine ⟨h1, ?_⟩
    unfold attemptSync
    rw [h3]
    exact countP_eraseIdx_of_true _ r.conns j c hj hc

theorem syncLoop_cost :
    ∀ (n : Nat) (r : ConferenceRoom) (w : World), w.errs = [] →
      (r.conns.countP w.isClosed < n →
        (syncLoop n r w).attempts = List.replicate (r.conns.countP w.isClosed) true ++ [false] ∧
        (syncLoop n r w).retryScheduled = false ∧
        (syncLoop n r w).room.conns.countP w.isClosed = 0) ∧
      (n ≤ r.conns.countP w.isClosed →
        (syncLoop n r w).attempts = List.replicate n true ∧
        (syncLoop n r w).retryScheduled = true ∧
        (syncLoop n r w).room.conns.countP w.isClosed = r.conns.countP w.isClosed - n)
  | 0, r, w => by
    intro _
    constructor
    · intro h
      omega
    · intro _
      exact ⟨rfl, rfl, rfl⟩
  | n + 1, r, w => by
    intro h
    obtain ⟨herrs, hstep⟩ := attemptSync_nil_step r w h
    have hcl : (attemptSync r w).world.isClosed = w.isClosed :=
      attemptSyncFrom_isClosed r r.conns 0 w
    have ih := syncLoop_cost n (attemptSync r w).room (attemptSync r w).world herrs
    rw [hcl] at ih
    unfold syncLoop
    dsimp only
    rcases hstep with ⟨h1, h2, h3⟩ | ⟨h1, h2⟩
    · rw [h1, if_neg Bool.false_ne_true]
      constructor
      · intro _
        refine ⟨?_, rfl, ?_⟩
        · rw [h3]
          rfl
        · rw [h2]
          exact h3
      · intro hle
        omega
    · rw [h1, if_pos rfl]
      constructor
      · intro hlt
        have hlt' : (attemptSync r w).room.conns.countP w.isClosed < n := by omega
        obtain ⟨i1, i2, i3⟩ := ih.1 hlt'
        refine ⟨?_, i2, i3⟩
        rw [i1, ← h2, List.replicate_succ, List.cons_append]
      · intro hle
        have hle' : n ≤ (attemptSync r w).room.conns.countP w.isClosed := by omega
        obtain ⟨i1, i2, i3⟩ := ih.2 hle'
        refine ⟨?_, i2, ?_⟩
        · rw [i1, List.replicate_succ]
        · rw [i3]
          omega

/-- C13 as stated fails.  The room with one closed peer is not registered and every
library call succeeds: the call runs no attempt at all, not two, and the closed session
stays in `conns`.  Likewise for an empty room that its collector has unregistered: no
attempt, not one. -/
theorem signalPeerConnections_unregistered_runs_nothing :
    twoPeerWorld.errs = [] ∧
    roomWithClosedPeer.conns.countP twoPeerWorld.isClosed = 1 ∧
    (signalPeerConnections { Rooms := [] } roomWithClosedPeer twoPeerWorld).attempts = [] ∧
    (signalPeerConnections { Rooms := [] } roomWithClosedPeer twoPeerWorld).room.conns =
      roomWithClosedPeer.conns ∧
    (closedCrowd 0).conns.countP twoPeerWorld.isClosed = 0 ∧
    (signalPeerConnections { Rooms := [] } (closedCrowd 0) twoPeerWorld).attempts = [] := by
  decide

/-- C13 amended.  For a room that is registered in `allRooms`, when every library call
succeeds and `k` sessions of `conns` are Closed (the states being those of the heap
throughout): if `k < 25` the call runs `k` attempts that ask for a restart and then one
that does not, `k + 1` in all, schedules no retry and leaves no Closed session; if
`k ≥ 25` it runs 25 attempts that all ask for a restart, schedules the deferred retry and
leaves `k - 25` Closed sessions in `conns`. -/
theorem signalPeerConnections_pruning_cost (allRooms : webRTCServer) (r : ConferenceRoom)
    (w : World) (hreg : allRooms.has r.RoomID = true) (herrs : w.errs = []) :
    (r.conns.countP w.isClosed < 25 →
      (signalPeerConnections allRooms r w).attempts =
        List.replicate (r.conns.countP w.isClosed) true ++ [false] ∧
      (signalPeerConnections allRooms r w).attempts.length = r.conns.countP w.isClosed + 1 ∧
      (signalPeerConnections allRooms r w).retryScheduled = false ∧
      (signalPeerConnections allRooms r w).room.conns.countP w.isClosed = 0) ∧
    (25 ≤ r.conns.countP w.isClosed →
      (signalPeerConnections allRooms r w).attempts = List.replicate 25 true ∧
      (signalPeerConnections allRooms r w).attempts.length = 25 ∧
      (signalPeerConnections allRooms r w).retryScheduled = true ∧
      (signalPeerConnections allRooms r w).room.conns.countP w.isClosed =
        r.conns.countP w.isClosed - 25) := by
  have hcost := syncLoop_cost 25 r w herrs
  unfold signalPeerConnections
  rw [if_pos hreg]
  dsimp only
  constructor
  · intro hlt
    obtain ⟨h1, h2, h3⟩ := hcost.1 hlt
    refine ⟨h1, ?_, h2, h3⟩
    rw [h1]
    simp
  · intro hle
    obtain ⟨h1, h2, h3⟩ := hcost.2 hle
    refine ⟨h1, ?_, h2, h3⟩
    rw [h1]
    simp

/-- The amended C13 at the registered room with one closed peer, where two attempts
run, and at a registered room of 26 closed peers, where 25 attempts run and one closed
session is left. -/
theorem signalPeerConnections_pruning_cost_witness :
    oneRoomRegistry.has roomWithClosedPeer.RoomID = true ∧
    twoPeerWorld.errs = [] ∧
    roomWithClosedPeer.conns.countP twoPeerWorld.isClosed < 25 ∧
    (signalPeerConnections oneRoomRegistry roomWithClosedPeer twoPeerWorld).attempts.length =
      roomWithClosedPeer.conns.countP twoPeerWorld.isClosed + 1 ∧
    25 ≤ (closedCrowd 26).conns.countP twoPeerWorld.isClosed ∧
    (signalPeerConnections oneRoomRegistry (closedCrowd 26) twoPeerWorld).retryScheduled = true :=
  ⟨by decide, rfl, by decide,
    ((signalPeerConnections_pruning_cost oneRoomRegistry roomWithClosedPeer twoPeerWorld
      (by decide) rfl).1 (by decide)).2.1,
    by decide,
    ((signalPeerConnections_pruning_cost oneRoomRegistry (closedCrowd 26) twoPeerWorld
      (by decide) rfl).2 (by decide)).2.2.1⟩

/-! ## C14: what a frame does after other frames -/

theorem mainLoop_frame_single (c : clientConnectionState) (f : Frame)
    (message : Option websocketwebRTCMessage) (w : World) :
    mainLoop c [LoopEvent.frame f] message w = onFrame c f message w := by
  simp only [mainLoop]
  split
  · next h =>
    cases hs : onFrame c f message w with
    | mk status msg world =>
      rw [hs] at h
      dsimp only at h ⊢
      rw [h]
  · rfl

theorem mainLoop_append (c : clientConnectionState) (h2 : List LoopEvent) :
    ∀ (h1 : List LoopEvent) (message : Option websocketwebRTCMessage) (w : World),
      (mainLoop c h1 message w).status = LoopStatus.waiting →
      mainLoop c (h1 ++ h2) message w =
        mainLoop c h2 (mainLoop c h1 message w).message (mainLoop c h1 message w).world
  | [], _, _ => fun _ => rfl
  | LoopEvent.tick :: rest, message, w => by
    simp only [List.cons_append, mainLoop]
    split
    · intro h
      cases h
    · exact mainLoop_append c h2 rest message _
  | LoopEvent.stop :: rest, message, w => by
    simp only [List.cons_append, mainLoop]
    intro h
    cases h
  | LoopEvent.frame f :: rest, message, w => by
    simp only [List.cons_append, mainLoop]
    split
    · exact mainLoop_append c h2 rest _ _
    · next hne =>
      intro h
      exact absurd h (hne · )

theorem jsonUnmarshal_complete (f : Frame) (hf : f.complete = true)
    (m1 m2 : Option websocketwebRTCMessage) : jsonUnmarshal f m1 = jsonUnmarshal f m2 := by
  cases f with
  | invalid => rfl
  | null => rfl
  | object event data =>
    cases event with
    | none => simp [Frame.complete] at hf
    | some e =>
      cases data with
      | none => simp [Frame.complete] at hf
      | some d => rfl

/-- C14 as stated fails.  Two sequences of frames end in the same frame, an object that
gives a string under `data` and nothing (no key, or `null`) under `event`; both leave
the loop waiting.  After a frame with the event `addTrack` the final frame is decoded as
another `addTrack`: the loop creates an offer again, and as the peer still has the offer
before it pending, setting the local description fails and the handler returns.  After
a frame with the event `ping` the same final frame is decoded as `ping`, nothing is
called and the loop keeps waiting.  The payload is carried over in the same way: a
`candidate` frame without `data` is decoded with the data of the frame before.  The loop
of the lobby answers the final frame with a second `info` after an `update` and with
nothing after a `ping`. -/
theorem mainLoop_replays_previous_event :
    (mainLoop { peerConnection := 1, websocket := 11 }
      [LoopEvent.frame (Frame.object (some "addTrack") (some ""))]
      (some { Event := "", Data := "" })
      { twoPeerWorld with errs := [false, false, false, false, false, true] }).status =
      LoopStatus.waiting ∧
    (mainLoop { peerConnection := 1, websocket := 11 }
      [LoopEvent.frame (Frame.object (some "ping") (some ""))]
      (some { Event := "", Data := "" })
      { twoPeerWorld with errs := [false, false, false, false, false, true] }).status =
      LoopStatus.waiting ∧
    (mainLoop { peerConnection := 1, websocket := 11 }
      [LoopEvent.frame (Frame.object (some "addTrack") (some "")),
        LoopEvent.frame (Frame.object none (some ""))]
      (some { Event := "", Data := "" })
      { twoPeerWorld with errs := [false, false, false, false, false, true] }).status =
      LoopStatus.returned ∧
    (mainLoop { peerConnection := 1, websocket := 11 }
      [LoopEvent.frame (Frame.object (some "ping") (some "")),
        LoopEvent.frame (Frame.object none (some ""))]
      (some { Event := "", Data := "" })
      { twoPeerWorld with errs := [false, false, false, false, false, true] }).status =
      LoopStatus.waiting ∧
    jsonUnmarshal (Frame.object none (some ""))
      (mainLoop { peerConnection := 1, websocket := 11 }
        [LoopEvent.frame (Frame.object (some "addTrack") (some ""))]
        (some { Event := "", Data := "" })
        { twoPeerWorld with errs := [false, false, false, false, false, true] }).message =
      Except.ok (some { Event := "addTrack", Data := "" }) ∧
    jsonUnmarshal (Frame.object none (some ""))
      (mainLoop { peerConnection := 1, websocket := 11 }
        [LoopEvent.frame (Frame.object (some "ping") (some ""))]
        (some { Event := "", Data := "" })
        { twoPeerWorld with errs := [false, false, false, false, false, true] }).message =
      Except.ok (some { Event := "ping", Data := "" }) ∧
    jsonUnmarshal (Frame.object (some "candidate") none)
      (some { Event := "answer", Data := "v=0" }) =
      Except.ok (some { Event := "candidate", Data := "v=0" }) ∧
    (lobbyLoop 21 "snapshot"
      [LoopEvent.frame (Frame.object (some "update") none), LoopEvent.frame (Frame.object none none)]
      (some { Event := "", Data := "" }) twoPeerWorld).world.sent.map (fun f => (f.1, f.2.Event)) =
      [(21, "info"), (21, "info")] ∧
    (lobbyLoop 21 "snapshot"
      [LoopEvent.frame (Frame.object (some "ping") none), LoopEvent.frame (Frame.object none none)]
      (some { Event := "", Data := "" }) twoPeerWorld).world.sent = [] :=
  ⟨by decide, by decide, by decide, by decide, rfl, rfl, rfl, by decide, by decide⟩

/-- C14 amended.  Take a frame that does not decode, or is `null`, or is an object that
gives a string under the key `event` and a string under the key `data`.  (a) What
`json.Unmarshal` makes of it, the event dispatched and the payload, does not depend on
the value of `message`, so it is the same after any two sequences of earlier events.
(b) In the same world the main loop of `JoinMeeting` ends in the same status and leaves
the same world whatever `message` held, and so does the loop of the lobby.  (c) A
sequence of events that leaves the main loop waiting and is followed by a frame is
handled by `onFrame` on the state the sequence left.  (d) For every object, complete or
not, each field is decoded to the string the object gives under its key, and to the
value an earlier frame left in `message` when the key is absent or `null`; such frames
are handled according to the frames before them. -/
theorem frame_handling_of_complete_frames (c : clientConnectionState) (wsc : Nat)
    (infoStr : String) (f : Frame) (hf : f.complete = true) :
    (∀ m1 m2, jsonUnmarshal f m1 = jsonUnmarshal f m2) ∧
    (∀ (h1 h2 : List LoopEvent) m1 m2 w1 w2,
      jsonUnmarshal f (mainLoop c h1 m1 w1).message =
        jsonUnmarshal f (mainLoop c h2 m2 w2).message) ∧
    (∀ m1 m2 w,
      (onFrame c f m1 w).status = (onFrame c f m2 w).status ∧
      (onFrame c f m1 w).world = (onFrame c f m2 w).world) ∧
    (∀ m1 m2 w,
      (onLobbyFrame wsc infoStr f m1 w).status = (onLobbyFrame wsc infoStr f m2 w).status ∧
      (onLobbyFrame wsc infoStr f m1 w).world = (onLobbyFrame wsc infoStr f m2 w).world) ∧
    (∀ (h : List LoopEvent) m w, (mainLoop c h m w).status = LoopStatus.waiting →
      mainLoop c (h ++ [LoopEvent.frame f]) m w =
        onFrame c f (mainLoop c h m w).message (mainLoop c h m w).world) ∧
    (∀ (event data : Option String) (m : websocketwebRTCMessage),
      jsonUnmarshal (Frame.object event data) (some m) =
        Except.ok (some { Event := event.getD m.Event, Data := data.getD m.Data })) := by
  refine ⟨jsonUnmarshal_complete f hf, fun h1 h2 m1 m2 w1 w2 => jsonUnmarshal_complete f hf _ _,
    ?_, ?_, ?_, fun _ _ _ => rfl⟩
  · intro m1 m2 w
    have hu := jsonUnmarshal_complete f hf m1 m2
    unfold onFrame
    rw [hu]
    cases jsonUnmarshal f m2 with
    | error e => exact ⟨rfl, rfl⟩
    | ok v =>
      cases v with
      | none => exact ⟨rfl, rfl⟩
      | some m => exact ⟨rfl, rfl⟩
  · intro m1 m2 w
    have hu := jsonUnmarshal_complete f hf m1 m2
    unfold onLobbyFrame
    rw [hu]
    cases jsonUnmarshal f m2 with
    | error e => exact ⟨rfl, rfl⟩
    | ok v =>
      cases v with
      | none => exact ⟨rfl, rfl⟩
      | some m => exact ⟨rfl, rfl⟩
  · intro h m w hw
    rw [mainLoop_append c [LoopEvent.frame f] h m w hw, mainLoop_frame_single]

/-- The amended C14 at an `addTrack` frame that gives a string under both keys: after a
`candidate` frame and after a `ping` frame it decodes to the same message, and the loop
that waited is in the same status after it. -/
theorem frame_handling_of_complete_frames_witness :
    (Frame.object (some "addTrack") (some "")).complete = true ∧
    jsonUnmarshal (Frame.object (some "addTrack") (some ""))
      (mainLoop { peerConnection := 1, websocket := 11 }
        [LoopEvent.frame (Frame.object (some "candidate") (some "c0"))]
        (some { Event := "", Data := "" }) twoPeerWorld).message =
    jsonUnmarshal (Frame.object (some "addTrack") (some ""))
      (mainLoop { peerConnection := 1, websocket := 11 }
        [LoopEvent.frame (Frame.object (some "ping") none)]
        (some { Event := "", Data := "" }) twoPeerWorld).message ∧
    (onFrame { peerConnection := 1, websocket := 11 } (Frame.object (some "addTrack") (some ""))
      (some { Event := "candidate", Data := "c0" }) twoPeerWorld).status =
    (onFrame { peerConnection := 1, websocket := 11 } (Frame.object (some "addTrack") (some ""))
      (some { Event := "ping", Data := "" }) twoPeerWorld).status :=
  ⟨rfl,
    (frame_handling_of_complete_frames { peerConnection := 1, websocket := 11 } 21 "snapshot"
      (Frame.object (some "addTrack") (some "")) rfl).2.1 _ _ _ _ _ _,
    ((frame_handling_of_complete_frames { peerConnection := 1, websocket := 11 } 21 "snapshot"
      (Frame.object (some "addTrack") (some "")) rfl).2.2.1 _ _ _).1⟩

end SFU
